import Mathlib

/-!
Verification development for the dungeon-generation core of a roguelike game
(TypeScript sources: `Random.ts`, `Room.ts`, `RoomComponent.ts`,
`RoomComponentRegistry.ts`, `DungeonGenerator.ts`, `LiveDungeonManager.ts`).

The TypeScript code is shallowly embedded.  JavaScript `number` values that
occur in the embedded code are always integer-valued IEEE-754 doubles, so
float arithmetic is modelled exactly on `Int` via `round53Z` (round an
integer to 53 significant bits, ties to even), which agrees with IEEE-754
`+`/`-`/`*` on integer-valued doubles.  `ToInt32`/`ToUint32`/bitwise
operators follow the ECMAScript definitions.  JS `Map`s are modelled as
association lists in insertion order (`set` on an existing key replaces in
place, otherwise appends — exactly the ECMAScript `Map` iteration order).
-/

/-! ## JavaScript number semantics (integer-valued doubles) -/

/-- Floor base-2 logarithm, structurally recursive on a fuel that bounds
the bit count (`fuel = n` suffices), so that the kernel can evaluate it. -/
def log2F : Nat → Nat → Nat
  | 0, _ => 0
  | fuel + 1, n => if n < 2 then 0 else log2F fuel (n / 2) + 1

/-- Round a natural number to the nearest IEEE-754 double
(53 significant bits, ties to even).  Exact for `n < 2^53`. -/
def round53 (n : Nat) : Nat :=
  if n < 2 ^ 53 then n
  else
    let e := log2F n n - 52
    let q := n >>> e
    let r := n % 2 ^ e
    let half := 2 ^ (e - 1)
    if r < half then q <<< e
    else if half < r then (q + 1) <<< e
    else if q % 2 = 0 then q <<< e else (q + 1) <<< e

/-- Round an integer to the nearest IEEE-754 double (sign-symmetric). -/
def round53Z (n : Int) : Int :=
  if n < 0 then -(round53 (-n).toNat : Nat) else (round53 n.toNat : Nat)

/-- ECMAScript ToUint32 of an integer-valued double. -/
def toUint32 (n : Int) : Nat := (n % 4294967296).toNat

/-- ECMAScript ToInt32 of an integer-valued double. -/
def toInt32 (n : Int) : Int :=
  let u := toUint32 n
  if u < 2147483648 then (u : Int) else (u : Int) - 4294967296

/-- JS `a ^ b` (32-bit xor, signed result). -/
def xor32 (a b : Int) : Int := toInt32 ((toUint32 a) ^^^ (toUint32 b) : Nat)

/-- JS `a >>> k` (unsigned right shift; result is a non-negative integer). -/
def ushr (a : Int) (k : Nat) : Int := ((toUint32 a) >>> k : Nat)

/-- JS `a + b` on integer-valued doubles. -/
def addF (a b : Int) : Int := round53Z (a + b)

/-- JS `a - b` on integer-valued doubles. -/
def subF (a b : Int) : Int := round53Z (a - b)

/-- JS `a * b` on integer-valued doubles. -/
def mulF (a b : Int) : Int := round53Z (a * b)

/-- Reduce a natural number mod 2^32 (JS `>>> 0` on a bit pattern). -/
def u32 (n : Nat) : Nat := n % 4294967296

/-! ## SeededRandom (`Random.ts`)

State is the four unsigned 32-bit words `this.state`.  `next()` returns the
32-bit numerator `result`; the JS return value is `result / 0x100000000`,
recovered below by `SeededRandom.nextValue`. -/

structure SeededRandom where
  s0 : Nat
  s1 : Nat
  s2 : Nat
  s3 : Nat
deriving Repr, DecidableEq

/-- The double literal `0x9e3779b97f4a7c15` (rounded to 53 bits by parsing). -/
def splitmixGamma : Int := round53Z 11400714819323198485

/-- The double literal `0xbf58476d1ce4e5b9`. -/
def splitmixMul1 : Int := round53Z 13787848793156543929

/-- The double literal `0x94d049bb133111eb`. -/
def splitmixMul2 : Int := round53Z 10723151780598845931

/-- One iteration of the `setSeed` loop body: from the running value of `s`
produce the updated `s` and the state word `z >>> 0`.
Source: `s = (s + 0x9e3779b97f4a7c15) | 0; let z = s; z = (z ^ (z >>> 30)) *
0xbf58476d1ce4e5b9; z = (z ^ (z >>> 27)) * 0x94d049bb133111eb;
z = z ^ (z >>> 31); this.state[i] = z >>> 0;` -/
def setSeedStep (s : Int) : Int × Nat :=
  let s' := toInt32 (addF s splitmixGamma)
  let z1 := mulF (xor32 s' (ushr s' 30)) splitmixMul1
  let z2 := mulF (xor32 z1 (ushr z1 27)) splitmixMul2
  let z3 := xor32 z2 (ushr z2 31)
  (s', toUint32 z3)

/-- `SeededRandom.setSeed`: initialize the four state words from a seed. -/
def SeededRandom.setSeed (seed : Int) : SeededRandom :=
  let p0 := setSeedStep seed
  let p1 := setSeedStep p0.1
  let p2 := setSeedStep p1.1
  let p3 := setSeedStep p2.1
  ⟨p0.2, p1.2, p2.2, p3.2⟩

/-- `SeededRandom.next`: xorshift128+ step.  Returns the 32-bit numerator
`result = (s0 + s3) >>> 0` (the JS value is `result / 0x100000000`) and the
advanced state.  All the bit operations in the source are congruences
mod 2^32, so they are computed directly on the unsigned words. -/
def SeededRandom.next (g : SeededRandom) : Nat × SeededRandom :=
  let s0 := u32 g.s0
  let s2 := u32 g.s2
  let s1 := (u32 g.s1) ^^^ s0
  let s3 := (u32 g.s3) ^^^ s2
  let result := u32 (s0 + u32 g.s3)
  let n0 := (u32 ((u32 (s0 <<< 24)) ||| (s0 >>> 8))) ^^^ s1 ^^^ (u32 (s1 <<< 16))
  let n1 := (u32 (s1 <<< 17)) ||| (s1 >>> 15)
  let n2 := (u32 ((u32 (s2 <<< 19)) ||| (s2 >>> 13))) ^^^ s3 ^^^ (u32 (s3 <<< 21))
  let n3 := (u32 (s3 <<< 5)) ||| (s3 >>> 27)
  (result, ⟨n0, n1, n2, n3⟩)

/-- The rational value returned by a `next()` call: `result / 0x100000000`. -/
def SeededRandom.nextValue (g : SeededRandom) : ℚ :=
  ((g.next.1 : ℚ) / 4294967296)

/-- `intBetween(min, max) = Math.floor(this.next() * (max - min + 1)) + min`.
`next()` is the exact dyadic `num / 2^32`, so the double product is
`round53Z (num * span) / 2^32` (scaling by `2^-32` is exact), and
`Math.floor` of that dyadic rational is floor division by `2^32`. -/
def SeededRandom.intBetween (g : SeededRandom) (min max : Int) :
    Int × SeededRandom :=
  let p := g.next
  let span := addF (subF max min) 1
  (addF (Int.fdiv (round53Z ((p.1 : Int) * span)) 4294967296) min, p.2)

/-- `chance(0.15) = this.next() < 0.15`.  The double nearest `0.15` is
`5404319552844595 / 2^55`, and `num / 2^32 < 5404319552844595 / 2^55`
iff `num * 2^23 < 5404319552844595`. -/
def SeededRandom.chance015 (g : SeededRandom) : Bool × SeededRandom :=
  let p := g.next
  (decide (p.1 * 8388608 < 5404319552844595), p.2)

/-- `pick(array) = array[intBetween(0, array.length - 1)]`
(`none` models the JS `undefined` on an empty array). -/
def SeededRandom.pick {α : Type} (g : SeededRandom) (xs : List α) :
    Option α × SeededRandom :=
  let p := g.intBetween 0 ((xs.length : Int) - 1)
  (xs.get? p.1.toNat, p.2)

/-- The Fisher–Yates loop of `shuffle`, with `i` running down to 1. -/
def shuffleLoop {α : Type} (g : SeededRandom) (xs : List α) (i : Nat) :
    List α × SeededRandom :=
  match i with
  | 0 => (xs, g)
  | Nat.succ k =>
    let p := g.intBetween 0 ((k + 1 : Nat) : Int)
    let jn := p.1.toNat
    match xs.get? (k + 1), xs.get? jn with
    | some a, some b => shuffleLoop p.2 ((xs.set (k + 1) b).set jn a) k
    | _, _ => (xs, p.2)

/-- `shuffle` (in-place Fisher–Yates driven by `intBetween`). -/
def SeededRandom.shuffle {α : Type} (g : SeededRandom) (xs : List α) :
    List α × SeededRandom :=
  shuffleLoop g xs (xs.length - 1)

/-- The subtract-and-scan loop of `weightedPick`, on values scaled by `2^32`
(exact for the natural-number weights used by the room catalogs, where every
double operation involved is exact). -/
def weightedScan {α : Type} (items : List α) (weights : List Nat)
    (random : Int) (last : Option α) : Option α :=
  match items, weights with
  | x :: xs, w :: ws =>
    let r := random - (w : Int) * 4294967296
    if r ≤ 0 then some x else weightedScan xs ws r (some x)
  | _, _ => last

/-- `weightedPick(items, weights)`: cumulative-weight scan over
`random = next() * totalWeight`; falls back to the last item. -/
def SeededRandom.weightedPick {α : Type} (g : SeededRandom) (items : List α)
    (weights : List Nat) : Option α × SeededRandom :=
  let p := g.next
  let total : Nat := weights.foldl (fun a b => a + b) 0
  (weightedScan items weights ((p.1 : Int) * (total : Int)) items.getLast?, p.2)

/-! basic bounds -/

theorem SeededRandom.next_fst_lt (g : SeededRandom) : g.next.1 < 4294967296 := by
  have : u32 ((u32 g.s0) + u32 g.s3) < 4294967296 := Nat.mod_lt _ (by norm_num)
  simpa [SeededRandom.next, u32] using this

/-! ## Association lists (JS `Map` in insertion order) -/

/-- JS `Map.get`. -/
def getA {κ α : Type} [DecidableEq κ] : List (κ × α) → κ → Option α
  | [], _ => none
  | (k, v) :: rest, q => if k = q then some v else getA rest q

/-- JS `Map.set`: replace in place if the key exists, else append. -/
def setA {κ α : Type} [DecidableEq κ] : List (κ × α) → κ → α → List (κ × α)
  | [], q, v => [(q, v)]
  | (k, w) :: rest, q, v =>
    if k = q then (q, v) :: rest else (k, w) :: setA rest q v

/-- JS `Map.delete`. -/
def delA {κ α : Type} [DecidableEq κ] : List (κ × α) → κ → List (κ × α)
  | [], _ => []
  | (k, w) :: rest, q => if k = q then rest else (k, w) :: delA rest q

/-! ## Room / Door graph model (`Room.ts`) -/

inductive DoorDirection : Type
  | north
  | south
  | east
  | west
deriving Repr, DecidableEq

inductive RoomType : Type
  | start
  | normal
  | treasure
  | shop
  | boss
  | secret
  | challenge
  | hub
deriving Repr, DecidableEq

/-- `TILE_SIZE` from `Constants.ts`. -/
def TILE_SIZE : Int := 16

structure Door where
  direction : DoorDirection
  targetRoomId : Option String
  isLocked : Bool
  isOpen : Bool
  position : Int × Int
deriving Repr, DecidableEq

/-- The `Room` class.  `doors` is the private `Map<DoorDirection, Door>` in
insertion order; the tile matrix starts as the all-zero grid from
`initializeTiles` and is replaced wholesale by `setTiles`. -/
structure Room where
  id : String
  type : RoomType
  width : Int
  height : Int
  gridX : Int
  gridY : Int
  worldX : Int
  worldY : Int
  doors : List (DoorDirection × Door)
  visited : Bool
  cleared : Bool
  templateId : Option String
  tiles : List (List Int)
deriving Repr, DecidableEq

/-- The constructor `new Room(config)` followed by `initializeTiles`
(grid position defaults to 0,0 until `setGridPosition`). -/
def Room.mk0 (id : String) (type : RoomType) (width height : Int)
    (templateId : Option String) : Room :=
  { id := id, type := type, width := width, height := height
    gridX := 0, gridY := 0, worldX := 0, worldY := 0
    doors := [], visited := false, cleared := false
    templateId := templateId
    tiles := List.replicate height.toNat (List.replicate width.toNat 0) }

/-- `setGridPosition(x, y)`; world coordinates are exact in the integer
range exercised here. -/
def Room.setGridPosition (r : Room) (x y : Int) : Room :=
  { r with gridX := x, gridY := y
           worldX := x * r.width * TILE_SIZE
           worldY := y * r.height * TILE_SIZE }

/-- `getDoorPosition(direction)`: wall midpoint of the relevant edge. -/
def Room.getDoorPosition (r : Room) (d : DoorDirection) : Int × Int :=
  let centerX := Int.fdiv r.width 2
  let centerY := Int.fdiv r.height 2
  match d with
  | DoorDirection.north => (centerX, 0)
  | DoorDirection.south => (centerX, r.height - 1)
  | DoorDirection.east => (r.width - 1, centerY)
  | DoorDirection.west => (0, centerY)

/-- `addDoor(direction, targetRoomId)`: unconditionally `Map.set`s a fresh
unlocked, open door at the wall midpoint. -/
def Room.addDoor (r : Room) (d : DoorDirection) (targetRoomId : Option String) :
    Room :=
  let door : Door :=
    { direction := d, targetRoomId := targetRoomId
      isLocked := false, isOpen := true, position := r.getDoorPosition d }
  { r with doors := setA r.doors d door }

/-- `getDoor(direction)`. -/
def Room.getDoor (r : Room) (d : DoorDirection) : Option Door :=
  getA r.doors d

/-- `getDoors()`: all doors in insertion order. -/
def Room.getDoors (r : Room) : List Door := r.doors.map (fun p => p.2)

/-- `hasDoor(direction)`. -/
def Room.hasDoor (r : Room) (d : DoorDirection) : Bool :=
  (r.getDoor d).isSome

/-- `lockDoors()`. -/
def Room.lockDoors (r : Room) : Room :=
  { r with doors := r.doors.map fun p =>
      (p.1, { p.2 with isLocked := true, isOpen := false }) }

/-- `unlockDoors()`. -/
def Room.unlockDoors (r : Room) : Room :=
  { r with doors := r.doors.map fun p =>
      (p.1, { p.2 with isLocked := false, isOpen := true }) }

/-- `setTiles(tiles)`. -/
def Room.setTiles (r : Room) (tiles : List (List Int)) : Room :=
  { r with tiles := tiles }

/-- `visit()`. -/
def Room.visit (r : Room) : Room := { r with visited := true }

/-- `clear()`: mark cleared and unlock the doors. -/
def Room.clear (r : Room) : Room := { r.unlockDoors with cleared := true }

/-! ## Room components and constraints (`RoomComponent.ts`) -/

inductive SizeCategory : Type
  | small
  | medium
  | large
deriving Repr, DecidableEq

structure DoorSlot where
  direction : DoorDirection
  position : ℚ
  required : Bool
deriving Repr, DecidableEq

inductive SpawnKind : Type
  | enemy
  | item
  | chest
  | hazard
deriving Repr, DecidableEq

structure SpawnPoint where
  x : Int
  y : Int
  kind : SpawnKind
  entityId : Option String
  weight : Option Nat
deriving Repr, DecidableEq

/-- `RoomComponentData`.  Selection weights in the catalogs are natural
numbers (default 1), for which every double operation performed by
`weightedPick` is exact. -/
structure RoomComponentData where
  id : String
  name : String
  type : RoomType
  width : Int
  height : Int
  sizeCategory : SizeCategory
  doorSlots : List DoorSlot
  tiles : List (List Int)
  spawns : List SpawnPoint
  difficulty : Int
  minFloor : Option Int
  maxFloor : Option Int
  tags : Option (List String)
  weight : Option Nat
deriving Repr, DecidableEq

/-- `RoomConstraints`. -/
structure RoomConstraints where
  requiredDoor : DoorDirection
  allowedSizes : Option (List SizeCategory)
  requiredType : Option RoomType
  maxDifficulty : Option Int
  minDifficulty : Option Int
  floorNumber : Option Int
  requiredTags : Option (List String)
  excludedTags : Option (List String)
  usedRoomIds : Option (List String)
deriving Repr, DecidableEq

/-- `getOppositeDirection`. -/
def getOppositeDirection : DoorDirection → DoorDirection
  | DoorDirection.north => DoorDirection.south
  | DoorDirection.south => DoorDirection.north
  | DoorDirection.east => DoorDirection.west
  | DoorDirection.west => DoorDirection.east

/-- `roomMatchesConstraints(room, constraints)`: the sequence of
early-`return false` checks, in source order. -/
def roomMatchesConstraints (room : RoomComponentData) (c : RoomConstraints) :
    Bool :=
  if ¬ (room.doorSlots.any fun slot => decide (slot.direction = c.requiredDoor))
    then false
  else if c.allowedSizes.elim false fun sizes => ¬ sizes.contains room.sizeCategory
    then false
  else if c.requiredType.elim false fun t => decide (room.type ≠ t)
    then false
  else if c.maxDifficulty.elim false fun m => decide (m < room.difficulty)
    then false
  else if c.minDifficulty.elim false fun m => decide (room.difficulty < m)
    then false
  else if c.floorNumber.elim false fun fn =>
      room.minFloor.elim false fun mf => decide (fn < mf)
    then false
  else if c.floorNumber.elim false fun fn =>
      room.maxFloor.elim false fun xf => decide (xf < fn)
    then false
  else if c.requiredTags.elim false fun tags =>
      tags.any fun tag => ¬ ((room.tags.getD []).contains tag)
    then false
  else if c.excludedTags.elim false fun tags =>
      room.tags.elim false fun rtags => tags.any fun tag => rtags.contains tag
    then false
  else if (c.usedRoomIds.getD []).contains room.id
    then false
  else true

/-! ## Room component registry (`RoomComponentRegistry.ts`)

The registry's static state after loading a catalog of valid, distinct
components is determined by the registration order; `byDoor(d)` then holds,
in registration order, exactly the components offering a door slot in `d`
(each pushed once thanks to the `includes` dedup check). -/

def RoomComponentRegistry.getByDoor (cat : List RoomComponentData)
    (d : DoorDirection) : List RoomComponentData :=
  cat.filter fun comp => comp.doorSlots.any fun slot => decide (slot.direction = d)

/-- `findAllMatching(constraints)`: first-pass narrowing by the required
door, then the full predicate. -/
def RoomComponentRegistry.findAllMatching (cat : List RoomComponentData)
    (c : RoomConstraints) : List RoomComponentData :=
  (RoomComponentRegistry.getByDoor cat c.requiredDoor).filter
    fun room => roomMatchesConstraints room c

/-- `findMatching(constraints, rng)`: `null` plus a logged warning when
nothing matches, otherwise a weighted random pick (default weight 1). -/
def RoomComponentRegistry.findMatching (cat : List RoomComponentData)
    (c : RoomConstraints) (rng : SeededRandom) :
    Option RoomComponentData × SeededRandom :=
  let matching := RoomComponentRegistry.findAllMatching cat c
  if matching.isEmpty then (none, rng)
  else
    let weights := matching.map fun r => r.weight.getD 1
    rng.weightedPick matching weights

/-! ## DungeonGenerator (`DungeonGenerator.ts`, eager strategy)

Generator state is the triple of private fields `rng`, `rooms`
(`Map<string, Room>`) and `grid` (`Map<gridKey, Room>`); the grid stores the
room id (the JS map stores the same `Room` object that `rooms` holds, so a
room is represented canonically in `rooms` and referenced by id).  Room ids
are `room_${rooms.size}`; the keys present in `rooms` are always exactly
`room_0 … room_{size-1}`, so the id is fresh and `Map.set` appends. -/

def MIN_ROOMS_PER_FLOOR : Int := 6
def MAX_ROOMS_PER_FLOOR : Int := 12
def MIN_ROOM_WIDTH : Int := 7
def MAX_ROOM_WIDTH : Int := 15
def MIN_ROOM_HEIGHT : Int := 7
def MAX_ROOM_HEIGHT : Int := 15

structure DungeonConfig where
  seed : Option Int
  floorNumber : Int
  minRooms : Option Int
  maxRooms : Option Int
  difficulty : Option Int
deriving Repr, DecidableEq

structure DungeonFloor where
  rooms : List Room
  startRoom : Room
  bossRoom : Room
  seed : Int
  floorNumber : Int
deriving Repr, DecidableEq

structure GenState where
  rng : SeededRandom
  rooms : List (String × Room)
  grid : List ((Int × Int) × String)
deriving Repr, DecidableEq

namespace DungeonGenerator

/-- `createRoom(type, gridX, gridY)`: fresh id `room_${rooms.size}`, random
width/height, stored in both `rooms` and `grid`. -/
def createRoom (st : GenState) (type : RoomType) (gridX gridY : Int) :
    Room × GenState :=
  let n := st.rooms.length
  let id := s!"room_{n}"
  let pw := st.rng.intBetween MIN_ROOM_WIDTH MAX_ROOM_WIDTH
  let ph := pw.2.intBetween MIN_ROOM_HEIGHT MAX_ROOM_HEIGHT
  let room := (Room.mk0 id type pw.1 ph.1 none).setGridPosition gridX gridY
  (room, { rng := ph.2
           rooms := st.rooms ++ [(id, room)]
           grid := setA st.grid (gridX, gridY) id })

/-- The four neighbour cells in the order used by the source
(north, south, east, west). -/
def neighborPositions (x y : Int) : List (Int × Int) :=
  [(x, y - 1), (x, y + 1), (x + 1, y), (x - 1, y)]

/-- `addNeighborsToFrontier(x, y, frontier)`: push the unoccupied
neighbours. -/
def addNeighborsToFrontier (grid : List ((Int × Int) × String)) (x y : Int)
    (frontier : List (Int × Int)) : List (Int × Int) :=
  frontier ++ (neighborPositions x y).filter fun p => (getA grid p).isNone

lemma createRoom_rooms_length (st : GenState) (t : RoomType) (x y : Int) :
    (createRoom st t x y).2.rooms.length = st.rooms.length + 1 := by
  simp [createRoom]

lemma addNeighborsToFrontier_length (grid) (x y : Int) (frontier) :
    (addNeighborsToFrontier grid x y frontier).length ≤ frontier.length + 4 := by
  have h := List.length_filter_le
    (fun p => (getA grid p).isNone) (neighborPositions x y)
  have h4 : (neighborPositions x y).length = 4 := rfl
  simp only [addNeighborsToFrontier, List.length_append]
  omega

/-- The `while` loop of `generateMainPath`: pop a random frontier entry,
skip it if meanwhile occupied, otherwise place a NORMAL room there and push
its unoccupied neighbours. -/
def mainPathLoop (st : GenState) (frontier : List (Int × Int))
    (targetRooms : Int) : GenState :=
  if h : (st.rooms.length : Int) < targetRooms ∧ frontier ≠ [] then
    let pI := st.rng.intBetween 0 ((frontier.length : Int) - 1)
    let st1 : GenState := { st with rng := pI.2 }
    match hp : frontier.get? pI.1.toNat with
    | none => st1
    | some pos =>
      let frontier1 := frontier.eraseIdx pI.1.toNat
      if (getA st1.grid pos).isSome then
        mainPathLoop st1 frontier1 targetRooms
      else
        let pr := createRoom st1 RoomType.normal pos.1 pos.2
        mainPathLoop pr.2
          (addNeighborsToFrontier pr.2.grid pos.1 pos.2 frontier1) targetRooms
  else st
termination_by (targetRooms - st.rooms.length).toNat * 5 + frontier.length
decreasing_by
  · rcases List.get?_eq_some.mp hp with ⟨hlt, -⟩
    have he := List.length_eraseIdx_add_one hlt
    simp only [pI] at he
    omega
  · rcases List.get?_eq_some.mp hp with ⟨hlt, -⟩
    have he := List.length_eraseIdx_add_one hlt
    have hcr := createRoom_rooms_length st1 RoomType.normal pos.1 pos.2
    have haf := addNeighborsToFrontier_length pr.2.grid pos.1 pos.2 frontier1
    have hm : (st.rooms.length : Int) < targetRooms := h.1
    simp only [pr, st1, frontier1, pI] at he hcr haf
    omega

/-- `generateMainPath(startRoom, targetRooms)`. -/
def generateMainPath (st : GenState) (startRoom : Room) (targetRooms : Int) :
    GenState :=
  mainPathLoop st
    (addNeighborsToFrontier st.grid startRoom.gridX startRoom.gridY [])
    targetRooms

/-- The furthest-room scan of `placeBossRoom` (`>` keeps the first room
found on ties; iteration is `rooms.values()` order). -/
def furthestLoop (startRoom : Room) (best : Room) (bestD : Int) :
    List Room → Room × Int
  | [] => (best, bestD)
  | r :: rest =>
    let d := |r.gridX - startRoom.gridX| + |r.gridY - startRoom.gridY|
    if bestD < d then furthestLoop startRoom r d rest
    else furthestLoop startRoom best bestD rest

/-- The candidate boss cells in source order with their door directions. -/
def bossDirections : List ((Int × Int) × DoorDirection) :=
  [((0, -1), DoorDirection.north), ((0, 1), DoorDirection.south),
   ((1, 0), DoorDirection.east), ((-1, 0), DoorDirection.west)]

/-- The neighbour scan of `placeBossRoom` over the seeded-shuffled
directions: place BOSS in the first unoccupied cell.  When every candidate
is occupied the source executes `furthestRoom.type === RoomType.BOSS;` — a
comparison, not an assignment — so the furthest room is returned with its
type unchanged. -/
def bossTryLoop (st : GenState) (furthestRoom : Room) :
    List ((Int × Int) × DoorDirection) → Room × GenState
  | [] => (furthestRoom, st)
  | (delta, _) :: rest =>
    let bossX := furthestRoom.gridX + delta.1
    let bossY := furthestRoom.gridY + delta.2
    if (getA st.grid (bossX, bossY)).isSome then
      bossTryLoop st furthestRoom rest
    else createRoom st RoomType.boss bossX bossY

/-- `placeBossRoom(startRoom)`. -/
def placeBossRoom (st : GenState) (startRoom : Room) : Room × GenState :=
  let fur := furthestLoop startRoom startRoom 0 (st.rooms.map fun p => p.2)
  let sh := st.rng.shuffle bossDirections
  bossTryLoop { st with rng := sh.2 } fur.1 sh.1

/-- `placeSpecialRooms(floorNumber)`: shuffles the NORMAL rooms but both
special-room branches are unimplemented (`TODO`) in the source, so only the
RNG advances. -/
def placeSpecialRooms (st : GenState) (_floorNumber : Int) : GenState :=
  let normalRooms := (st.rooms.map fun p => p.2).filter
    fun r => decide (r.type = RoomType.normal)
  if normalRooms.length < 2 then st
  else
    let sh := st.rng.shuffle normalRooms
    { st with rng := sh.2 }

/-- The neighbour checks of `getNeighbors(x, y)` in source order, giving the
neighbouring room's id and the direction towards it. -/
def getNeighbors (grid : List ((Int × Int) × String)) (x y : Int) :
    List (String × DoorDirection) :=
  [((x, y - 1), DoorDirection.north), ((x, y + 1), DoorDirection.south),
   ((x + 1, y), DoorDirection.east), ((x - 1, y), DoorDirection.west)].filterMap
    fun pd => (getA grid pd.1).map fun rid => (rid, pd.2)

/-- The body of `connectRooms` for one room: add a door towards every
grid-adjacent neighbour unless one is already recorded.  (`addDoor` only
mutates the room being iterated, and the grid is not modified, so the
per-room updates are independent.) -/
def connectOne (grid : List ((Int × Int) × String)) (room : Room) : Room :=
  (getNeighbors grid room.gridX room.gridY).foldl
    (fun r nd => if r.hasDoor nd.2 then r else r.addDoor nd.2 (some nd.1)) room

/-- `connectRooms()`: the final connection pass over every placed room. -/
def connectRooms (st : GenState) : GenState :=
  { st with rooms := st.rooms.map fun p => (p.1, connectOne st.grid p.2) }

/-- `generate(config)`.  `Date.now()` (the default seed) is passed in as the
explicit argument `now`.  The returned `startRoom`/`bossRoom` are the live
objects, i.e. the post-connection versions, recovered by id lookup. -/
def generate (config : DungeonConfig) (now : Int) : DungeonFloor :=
  let seed := config.seed.getD now
  let st0 : GenState := { rng := SeededRandom.setSeed seed, rooms := [], grid := [] }
  let minRooms := config.minRooms.getD MIN_ROOMS_PER_FLOOR
  let maxRooms := config.maxRooms.getD MAX_ROOMS_PER_FLOOR
  let pt := st0.rng.intBetween minRooms maxRooms
  let st1 : GenState := { st0 with rng := pt.2 }
  let ps := createRoom st1 RoomType.start 0 0
  let startRoom := ps.1
  let st2 := generateMainPath ps.2 startRoom pt.1
  let pb := placeBossRoom st2 startRoom
  let st3 := placeSpecialRooms pb.2 config.floorNumber
  let st4 := connectRooms st3
  { rooms := st4.rooms.map fun p => p.2
    startRoom := (getA st4.rooms startRoom.id).getD startRoom
    bossRoom := (getA st4.rooms pb.1.id).getD pb.1
    seed := seed
    floorNumber := config.floorNumber }

end DungeonGenerator

/-! ## LiveDungeonManager (`LiveDungeonManager.ts`, incremental strategy)

Manager state is the private fields.  The JS maps store shared `Room`
objects; here rooms live canonically in `rooms` (keyed by id, insertion
order) and `grid`, `startRoom`, `currentRoom` refer to them by id, so that
a mutation through any alias is a single map update.  `enterDoor` takes the
current room by id (callers pass rooms of this manager).  Pending doors are
keyed structurally by `(roomId, direction)`, the content of the JS string
key `${room.id}_${door.direction}`.  Event emission and `console` logging
are side effects outside the model. -/

structure PendingDoor where
  roomId : String
  direction : DoorDirection
  worldX : Int
  worldY : Int
deriving Repr, DecidableEq

structure LiveState where
  rng : SeededRandom
  rooms : List (String × Room)
  grid : List ((Int × Int) × String)
  pendingDoors : List ((String × DoorDirection) × PendingDoor)
  usedComponentIds : List String
  floorNumber : Int
  startRoom : Option String
  currentRoom : Option String
  maxRooms : Int
  roomCount : Int
  bossPlaced : Bool
deriving Repr, DecidableEq

namespace LiveDungeonManager

/-- The constructor (`Date.now()` passed explicitly as `now`;
`maxRooms` defaults to `10 + floorNumber * 2`). -/
def mkManager (seed : Option Int) (floorNumber : Int) (maxRooms : Option Int)
    (now : Int) : LiveState :=
  { rng := SeededRandom.setSeed (seed.getD now)
    rooms := [], grid := [], pendingDoors := [], usedComponentIds := []
    floorNumber := floorNumber
    startRoom := none, currentRoom := none
    maxRooms := maxRooms.getD (10 + floorNumber * 2)
    roomCount := 0, bossPlaced := false }

/-- `getAdjacentPosition(x, y, direction)`. -/
def getAdjacentPosition (x y : Int) : DoorDirection → Int × Int
  | DoorDirection.north => (x, y - 1)
  | DoorDirection.south => (x, y + 1)
  | DoorDirection.east => (x + 1, y)
  | DoorDirection.west => (x - 1, y)

/-- `createRoomFromComponent(component, gridX, gridY)`.  The fresh id is
`room_${rooms.size}_${component.id}` (existing keys carry smaller size
prefixes, so `Map.set` appends); a door is added for every slot with target
`null`; `usedComponentIds` is a JS `Set` (insertion-ordered, deduplicated). -/
def createRoomFromComponent (st : LiveState) (component : RoomComponentData)
    (gridX gridY : Int) : Room × LiveState :=
  let n := st.rooms.length
  let cid := component.id
  let room0 := Room.mk0 s!"room_{n}_{cid}" component.type component.width
    component.height (some component.id)
  let room1 := (room0.setGridPosition gridX gridY).setTiles component.tiles
  let room := component.doorSlots.foldl
    (fun r slot => r.addDoor slot.direction none) room1
  (room,
   { st with
      rooms := st.rooms ++ [(room.id, room)]
      grid := setA st.grid (gridX, gridY) room.id
      usedComponentIds :=
        if st.usedComponentIds.contains cid then st.usedComponentIds
        else st.usedComponentIds ++ [cid] })

/-- Helper: mutate the door of a room in a given direction, when present
(`if (doorA) doorA.targetRoomId = …`). -/
def setDoorTarget (room : Room) (d : DoorDirection) (target : String) : Room :=
  match getA room.doors d with
  | none => room
  | some door =>
    let door1 : Door := { door with targetRoomId := some target }
    { room with doors := setA room.doors d door1 }

/-- Helper: apply a mutation to the live room object with the given id. -/
def updateRoom (st : LiveState) (rid : String) (f : Room → Room) : LiveState :=
  match getA st.rooms rid with
  | none => st
  | some room => { st with rooms := setA st.rooms rid (f room) }

/-- `connectRooms(roomA, roomB, directionFromA)`: set each side's door
target when that door exists. -/
def connectRooms (st : LiveState) (aId bId : String)
    (directionFromA : DoorDirection) : LiveState :=
  let st1 := updateRoom st aId fun r => setDoorTarget r directionFromA bId
  updateRoom st1 bId fun r =>
    setDoorTarget r (getOppositeDirection directionFromA) aId

/-- One iteration of the `registerPendingDoors` loop: connect to an
existing neighbour room, or record a pending door.  Only the door's
direction and position and the room's immutable fields are read, so
iterating over the snapshot taken at call time is faithful. -/
def registerPendingStep (st : LiveState) (room : Room) (door : Door) :
    LiveState :=
  let targetPos := getAdjacentPosition room.gridX room.gridY door.direction
  match getA st.grid targetPos with
  | some existingId => connectRooms st room.id existingId door.direction
  | none =>
    let pd : PendingDoor :=
      { roomId := room.id, direction := door.direction
        worldX := door.position.1 * TILE_SIZE + room.worldX
        worldY := door.position.2 * TILE_SIZE + room.worldY }
    { st with pendingDoors := setA st.pendingDoors (room.id, door.direction) pd }

/-- `registerPendingDoors(room)`. -/
def registerPendingDoors (st : LiveState) (room : Room) : LiveState :=
  room.getDoors.foldl (fun s door => registerPendingStep s room door) st

/-- `registerPendingDoors` applied to the live object with the given id. -/
def registerPendingDoorsById (st : LiveState) (rid : String) : LiveState :=
  match getA st.rooms rid with
  | none => st
  | some room => registerPendingDoors st room

/-- `setCurrentRoom(room)`: record it, `visit()` it, and lock its doors when
it is an uncleared NORMAL room. -/
def setCurrentRoom (st : LiveState) (rid : String) : LiveState :=
  match getA st.rooms rid with
  | none => st
  | some room =>
    let room1 := room.visit
    let room2 :=
      if decide (room1.type = RoomType.normal) && !room1.cleared
      then room1.lockDoors else room1
    { st with currentRoom := some rid, rooms := setA st.rooms rid room2 }

/-- `createRoomAtDoor(component, fromRoom, direction)`. -/
def createRoomAtDoor (st : LiveState) (component : RoomComponentData)
    (fromRoom : Room) (direction : DoorDirection) : Room × LiveState :=
  let targetPos := getAdjacentPosition fromRoom.gridX fromRoom.gridY direction
  let pr := createRoomFromComponent st component targetPos.1 targetPos.2
  (pr.1, { pr.2 with roomCount := pr.2.roomCount + 1 })

/-- `generateRoomForDoor(fromRoom, direction)`: choose the room type
(forcing BOSS — and latching `bossPlaced` — when the budget is nearly
exhausted), build the constraints, query the registry, retry once without
the type constraint, and instantiate the winner at the adjacent cell. -/
def generateRoomForDoor (cat : List RoomComponentData) (st : LiveState)
    (fromRoom : Room) (direction : DoorDirection) :
    Option Room × LiveState :=
  let pTB : RoomType × LiveState :=
    if !st.bossPlaced && decide (st.maxRooms - 1 ≤ st.roomCount) then
      (RoomType.boss, { st with bossPlaced := true })
    else
      let pc := st.rng.chance015
      let stc : LiveState := { st with rng := pc.2 }
      if pc.1 && decide (2 < stc.roomCount) then
        let pp := stc.rng.pick [RoomType.treasure, RoomType.shop]
        (pp.1.getD RoomType.normal, { stc with rng := pp.2 })
      else (RoomType.normal, stc)
  let roomType := pTB.1
  let st1 := pTB.2
  let constraints : RoomConstraints :=
    { requiredDoor := getOppositeDirection direction
      allowedSizes := none
      requiredType := some roomType
      maxDifficulty := some (st1.floorNumber + 2)
      minDifficulty := some (max 1 (st1.floorNumber - 1))
      floorNumber := some st1.floorNumber
      requiredTags := none, excludedTags := none
      usedRoomIds :=
        if 10 < st1.usedComponentIds.length then none
        else some st1.usedComponentIds }
  let pm := RoomComponentRegistry.findMatching cat constraints st1.rng
  let st2 : LiveState := { st1 with rng := pm.2 }
  match pm.1 with
  | some component =>
    let pr := createRoomAtDoor st2 component fromRoom direction
    (some pr.1, pr.2)
  | none =>
    let pf := RoomComponentRegistry.findMatching cat
      { constraints with requiredType := none } st2.rng
    let st3 : LiveState := { st2 with rng := pf.2 }
    match pf.1 with
    | none => (none, st3)
    | some fallback =>
      let pr := createRoomAtDoor st3 fallback fromRoom direction
      (some pr.1, pr.2)

/-- `enterDoor(fromRoom, direction)`, returning the id of the room entered
(`none` models the JS `null`). -/
def enterDoor (cat : List RoomComponentData) (st : LiveState)
    (fromId : String) (direction : DoorDirection) :
    Option String × LiveState :=
  match getA st.rooms fromId with
  | none => (none, st)
  | some fromRoom =>
    match getA st.pendingDoors (fromId, direction) with
    | none =>
      let targetPos := getAdjacentPosition fromRoom.gridX fromRoom.gridY direction
      match getA st.grid targetPos with
      | some existingId => (some existingId, setCurrentRoom st existingId)
      | none => (none, st)
    | some _ =>
      let pg := generateRoomForDoor cat st fromRoom direction
      match pg.1 with
      | none => (none, pg.2)
      | some newRoom =>
        let st2 : LiveState :=
          { pg.2 with pendingDoors := delA pg.2.pendingDoors (fromId, direction) }
        let st3 := connectRooms st2 fromId newRoom.id direction
        let st4 := registerPendingDoorsById st3 newRoom.id
        let st5 := setCurrentRoom st4 newRoom.id
        (some newRoom.id, st5)

/-- The constraints of the start-room query in `initialize()`
("Start room should have at least one exit"). -/
def startConstraints : RoomConstraints :=
  { requiredDoor := DoorDirection.north, allowedSizes := none
    requiredType := some RoomType.start, maxDifficulty := none
    minDifficulty := none, floorNumber := none
    requiredTags := none, excludedTags := none, usedRoomIds := none }

/-- `initialize()`: place a START room at the origin; the source throws an
`Error` when no start component matches, modelled as `Except.error`. -/
def initFloor (cat : List RoomComponentData) (st : LiveState) :
    Except String (String × LiveState) :=
  let pm := RoomComponentRegistry.findMatching cat startConstraints st.rng
  let st1 : LiveState := { st with rng := pm.2 }
  match pm.1 with
  | none => Except.error "No valid start room component found"
  | some startComponent =>
    let pr := createRoomFromComponent st1 startComponent 0 0
    let st2 : LiveState :=
      { pr.2 with startRoom := some pr.1.id, currentRoom := some pr.1.id
                  roomCount := 1 }
    Except.ok (pr.1.id, registerPendingDoorsById st2 pr.1.id)

/-- `clearCurrentRoom()`. -/
def clearCurrentRoom (st : LiveState) : LiveState :=
  match st.currentRoom with
  | none => st
  | some rid => updateRoom st rid Room.clear

/-- `isFullyExplored()`. -/
def isFullyExplored (st : LiveState) : Bool := st.pendingDoors.isEmpty

/-- An exploration-session event after `initialize`. -/
inductive LiveOp : Type
  | enter (fromId : String) (direction : DoorDirection)
  | clearCur
deriving Repr, DecidableEq

def runOp (cat : List RoomComponentData) (st : LiveState) : LiveOp → LiveState
  | LiveOp.enter fid d => (enterDoor cat st fid d).2
  | LiveOp.clearCur => clearCurrentRoom st

def runOps (cat : List RoomComponentData) : List LiveOp → LiveState → LiveState
  | [], st => st
  | op :: ops, st => runOps cat ops (runOp cat st op)

/-- Whether a given `enterDoor` call executes the forced-BOSS branch of
`generateRoomForDoor` (which latches `bossPlaced`). -/
def forcedBossFires (st : LiveState) (fid : String) (d : DoorDirection) : Bool :=
  (getA st.rooms fid).isSome && (getA st.pendingDoors (fid, d)).isSome &&
    !st.bossPlaced && decide (st.maxRooms - 1 ≤ st.roomCount)

/-- How many `enterDoor` calls of a session take the forced-BOSS branch. -/
def countForced (cat : List RoomComponentData) :
    List LiveOp → LiveState → Nat
  | [], _ => 0
  | LiveOp.enter fid d :: ops, st =>
    (if forcedBossFires st fid d then 1 else 0) +
      countForced cat ops (runOp cat st (LiveOp.enter fid d))
  | LiveOp.clearCur :: ops, st =>
    countForced cat ops (runOp cat st LiveOp.clearCur)

end LiveDungeonManager

/-! ## Concrete catalogs and sessions used by the claims

All sessions are seeded with 12345.  Under the JS double semantics embedded
above, `setSeed(12345)` collapses the xorshift state to four zero words
(each SplitMix64 product overflows 2^53 so far that the rounded double is a
multiple of 2^32, and `ToInt32` of it is 0), so every `next()` of such a
session returns 0 — making the runs fully deterministic and easy to
evaluate, while still exercising the exact embedded code paths. -/

/-- A valid room component with the given door slots (weight and floor
bounds absent, difficulty as given). -/
def mkComponent (id : String) (type : RoomType) (slots : List DoorDirection)
    (difficulty : Int) : RoomComponentData :=
  { id := id, name := id, type := type, width := 7, height := 7
    sizeCategory := SizeCategory.small
    doorSlots := slots.map fun d =>
      { direction := d, position := (1 : ℚ) / 2, required := true }
    tiles := [], spawns := [], difficulty := difficulty
    minFloor := none, maxFloor := none, tags := none, weight := none }

/-- Catalog for the grid-reassignment session (claim about grid
exclusivity). -/
def catA : List RoomComponentData :=
  [mkComponent "ST" RoomType.start [DoorDirection.north, DoorDirection.east] 1,
   mkComponent "R1" RoomType.normal [DoorDirection.west, DoorDirection.north] 1,
   mkComponent "R2" RoomType.normal [DoorDirection.south, DoorDirection.west] 1,
   mkComponent "R3" RoomType.normal [DoorDirection.east, DoorDirection.south] 1,
   mkComponent "R4" RoomType.normal [DoorDirection.south] 1]

/-- Catalog for the one-way-door session (reciprocity). -/
def catB : List RoomComponentData :=
  [mkComponent "STB" RoomType.start [DoorDirection.north] 1,
   mkComponent "B1" RoomType.normal [DoorDirection.south, DoorDirection.west] 1,
   mkComponent "B2" RoomType.normal [DoorDirection.east, DoorDirection.south] 1,
   mkComponent "B3" RoomType.normal [DoorDirection.north, DoorDirection.east] 1]

/-- Catalog for the boss-free completed session (boss uniqueness). -/
def catC : List RoomComponentData :=
  [mkComponent "STC" RoomType.start [DoorDirection.north] 1,
   mkComponent "N1" RoomType.normal [DoorDirection.south] 1]

/-- The freshly constructed manager used by the sessions
(`new LiveDungeonManager(scene, { seed: 12345, floorNumber: 1 })`). -/
def live0 : LiveState := LiveDungeonManager.mkManager (some 12345) 1 none 0

/-- The state after `initialize()` on a catalog (the sessions below only use
catalogs on which it succeeds). -/
def liveInit (cat : List RoomComponentData) : LiveState :=
  match LiveDungeonManager.initFloor cat live0 with
  | Except.ok p => p.2
  | Except.error _ => live0

def stA1 : LiveState := liveInit catA
def stA2 : LiveState :=
  (LiveDungeonManager.enterDoor catA stA1 "room_0_ST" DoorDirection.east).2
def stA3 : LiveState :=
  (LiveDungeonManager.enterDoor catA stA2 "room_1_R1" DoorDirection.north).2
def stA4 : LiveState :=
  (LiveDungeonManager.enterDoor catA stA3 "room_2_R2" DoorDirection.west).2
def stA5 : LiveState :=
  (LiveDungeonManager.enterDoor catA stA4 "room_0_ST" DoorDirection.north).2

def stB1 : LiveState := liveInit catB
def stB2 : LiveState :=
  (LiveDungeonManager.enterDoor catB stB1 "room_0_STB" DoorDirection.north).2
def stB3 : LiveState :=
  (LiveDungeonManager.enterDoor catB stB2 "room_1_B1" DoorDirection.west).2
def stB4 : LiveState :=
  (LiveDungeonManager.enterDoor catB stB3 "room_2_B2" DoorDirection.south).2

def stC1 : LiveState := liveInit catC
def stC2 : LiveState :=
  (LiveDungeonManager.enterDoor catC stC1 "room_0_STC" DoorDirection.north).2

/-! step equations and a fuel-indexed twin for `mainPathLoop`, so that
concrete runs can be evaluated by the kernel -/

namespace DungeonGenerator

theorem mainPathLoop_exit (st : GenState) (frontier : List (Int × Int))
    (t : Int) (hc : ¬ ((st.rooms.length : Int) < t ∧ frontier ≠ [])) :
    mainPathLoop st frontier t = st := by
  rw [mainPathLoop.eq_def, dif_neg hc]

theorem mainPathLoop_none (st : GenState) (frontier : List (Int × Int))
    (t : Int) (hc : (st.rooms.length : Int) < t ∧ frontier ≠ [])
    (hget : frontier.get?
      (st.rng.intBetween 0 ((frontier.length : Int) - 1)).1.toNat = none) :
    mainPathLoop st frontier t =
      { st with rng := (st.rng.intBetween 0 ((frontier.length : Int) - 1)).2 } := by
  rw [mainPathLoop.eq_def, dif_pos hc]
  dsimp only
  split
  · rfl
  · rename_i pos heq
    rw [hget] at heq
    cases heq

theorem mainPathLoop_stale (st : GenState) (frontier : List (Int × Int))
    (t : Int) (pos : Int × Int)
    (hc : (st.rooms.length : Int) < t ∧ frontier ≠ [])
    (hget : frontier.get?
      (st.rng.intBetween 0 ((frontier.length : Int) - 1)).1.toNat = some pos)
    (hocc : (getA st.grid pos).isSome = true) :
    mainPathLoop st frontier t =
      mainPathLoop { st with rng := (st.rng.intBetween 0 ((frontier.length : Int) - 1)).2 }
        (frontier.eraseIdx (st.rng.intBetween 0 ((frontier.length : Int) - 1)).1.toNat) t := by
  rw [mainPathLoop.eq_def, dif_pos hc]
  dsimp only
  split
  · rename_i heq
    rw [hget] at heq
    cases heq
  · rename_i pos' heq
    rw [hget] at heq
    cases heq
    rw [if_pos hocc]

theorem mainPathLoop_place (st : GenState) (frontier : List (Int × Int))
    (t : Int) (pos : Int × Int)
    (hc : (st.rooms.length : Int) < t ∧ frontier ≠ [])
    (hget : frontier.get?
      (st.rng.intBetween 0 ((frontier.length : Int) - 1)).1.toNat = some pos)
    (hocc : ¬ (getA st.grid pos).isSome = true) :
    mainPathLoop st frontier t =
      mainPathLoop
        (createRoom { st with rng := (st.rng.intBetween 0 ((frontier.length : Int) - 1)).2 }
          RoomType.normal pos.1 pos.2).2
        (addNeighborsToFrontier
          (createRoom { st with rng := (st.rng.intBetween 0 ((frontier.length : Int) - 1)).2 }
            RoomType.normal pos.1 pos.2).2.grid pos.1 pos.2
          (frontier.eraseIdx (st.rng.intBetween 0 ((frontier.length : Int) - 1)).1.toNat)) t := by
  rw [mainPathLoop.eq_def, dif_pos hc]
  dsimp only
  split
  · rename_i heq
    rw [hget] at heq
    cases heq
  · rename_i pos' heq
    rw [hget] at heq
    cases heq
    rw [if_neg hocc]

/-- Fuel-indexed structural twin of `mainPathLoop`, used to run the loop
inside the kernel on concrete inputs. -/
def mainPathLoopF (fuel : Nat) (st : GenState) (frontier : List (Int × Int))
    (targetRooms : Int) : GenState :=
  match fuel with
  | 0 => st
  | Nat.succ fuel =>
    if (st.rooms.length : Int) < targetRooms ∧ frontier ≠ [] then
      let pI := st.rng.intBetween 0 ((frontier.length : Int) - 1)
      let st1 : GenState := { st with rng := pI.2 }
      match frontier.get? pI.1.toNat with
      | none => st1
      | some pos =>
        let frontier1 := frontier.eraseIdx pI.1.toNat
        if (getA st1.grid pos).isSome then
          mainPathLoopF fuel st1 frontier1 targetRooms
        else
          let pr := createRoom st1 RoomType.normal pos.1 pos.2
          mainPathLoopF fuel pr.2
            (addNeighborsToFrontier pr.2.grid pos.1 pos.2 frontier1) targetRooms
    else st

theorem mainPathLoopF_eq (fuel : Nat) :
    ∀ (st : GenState) (frontier : List (Int × Int)) (targetRooms : Int),
      (targetRooms - st.rooms.length).toNat * 5 + frontier.length < fuel →
      mainPathLoopF fuel st frontier targetRooms =
        mainPathLoop st frontier targetRooms := by
  induction fuel with
  | zero => intro st frontier t hf; omega
  | succ fuel ih =>
    intro st frontier t hf
    by_cases hc : (st.rooms.length : Int) < t ∧ frontier ≠ []
    · cases hget : frontier.get?
        (st.rng.intBetween 0 ((frontier.length : Int) - 1)).1.toNat with
      | none =>
        rw [mainPathLoop_none st frontier t hc hget]
        rw [List.get?_eq_getElem?] at hget
        simp [mainPathLoopF, hc, hget]
      | some pos =>
        rcases List.get?_eq_some.mp hget with ⟨hlt, -⟩
        have he := List.length_eraseIdx_add_one hlt
        by_cases hocc : (getA st.grid pos).isSome = true
        · rw [mainPathLoop_stale st frontier t pos hc hget hocc]
          rw [List.get?_eq_getElem?] at hget
          simp only [mainPathLoopF, if_pos hc, List.get?_eq_getElem?, hget, hocc, if_true]
          apply ih
          dsimp only
          omega
        · rw [mainPathLoop_place st frontier t pos hc hget hocc]
          have hcr := createRoom_rooms_length
            { st with rng := (st.rng.intBetween 0 ((frontier.length : Int) - 1)).2 }
            RoomType.normal pos.1 pos.2
          have haf := addNeighborsToFrontier_length
            (createRoom { st with rng := (st.rng.intBetween 0 ((frontier.length : Int) - 1)).2 }
              RoomType.normal pos.1 pos.2).2.grid pos.1 pos.2
            (frontier.eraseIdx (st.rng.intBetween 0 ((frontier.length : Int) - 1)).1.toNat)
          have hm : (st.rooms.length : Int) < t := hc.1
          rw [List.get?_eq_getElem?] at hget
          simp only [mainPathLoopF, if_pos hc, List.get?_eq_getElem?, hget, hocc, if_false,
            Bool.false_eq_true]
          apply ih
          dsimp only
          dsimp only at hcr haf
          omega
    · rw [mainPathLoop_exit st frontier t hc]
      simp [mainPathLoopF, hc]

end DungeonGenerator


/-! ## Association list lemmas -/

lemma getA_setA_self {κ α : Type} [DecidableEq κ] (l : List (κ × α)) (k : κ)
    (v : α) : getA (setA l k v) k = some v := by
  induction l with
  | nil => simp [setA, getA]
  | cons p rest ih =>
    cases p with
    | mk a b =>
      by_cases h : a = k
      · simp [setA, getA, h]
      · simp [setA, getA, h, ih]

lemma getA_setA_ne {κ α : Type} [DecidableEq κ] (l : List (κ × α)) (k q : κ)
    (v : α) (h : q ≠ k) : getA (setA l k v) q = getA l q := by
  induction l with
  | nil => simp [setA, getA, Ne.symm h]
  | cons p rest ih =>
    cases p with
    | mk a b =>
      by_cases ha : a = k
      · subst ha
        simp [setA, getA, Ne.symm h]
      · simp [setA, getA, ha, ih]

/-! ## Concrete floor used by the eager-generation claims -/

/-- Scenario A's configuration:
`{floorNumber: 1, seed: 12345, minRooms: 6, maxRooms: 6}`. -/
def cfg12345 : DungeonConfig :=
  { seed := some 12345, floorNumber := 1, minRooms := some 6, maxRooms := some 6
    difficulty := none }

namespace DungeonGenerator

/-- `generate` with the main-path loop run on fuel — used (together with
`mainPathLoopF_eq`) to evaluate concrete floors inside the kernel. -/
def generateF (config : DungeonConfig) (now : Int) (fuel : Nat) : DungeonFloor :=
  let seed := config.seed.getD now
  let st0 : GenState := { rng := SeededRandom.setSeed seed, rooms := [], grid := [] }
  let minRooms := config.minRooms.getD MIN_ROOMS_PER_FLOOR
  let maxRooms := config.maxRooms.getD MAX_ROOMS_PER_FLOOR
  let pt := st0.rng.intBetween minRooms maxRooms
  let st1 : GenState := { st0 with rng := pt.2 }
  let ps := createRoom st1 RoomType.start 0 0
  let startRoom := ps.1
  let st2 := mainPathLoopF fuel ps.2
    (addNeighborsToFrontier ps.2.grid startRoom.gridX startRoom.gridY []) pt.1
  let pb := placeBossRoom st2 startRoom
  let st3 := placeSpecialRooms pb.2 config.floorNumber
  let st4 := connectRooms st3
  { rooms := st4.rooms.map fun p => p.2
    startRoom := (getA st4.rooms startRoom.id).getD startRoom
    bossRoom := (getA st4.rooms pb.1.id).getD pb.1
    seed := seed
    floorNumber := config.floorNumber }

set_option maxRecDepth 4000 in
theorem generate12345_eval :
    generate cfg12345 0 = generateF cfg12345 0 40 := by
  unfold generate generateF generateMainPath
  dsimp only
  rw [← mainPathLoopF_eq 40]
  decide

end DungeonGenerator

/-! ## Spec-side definitions used by the claims -/

/-- The room-to-target door observation used by the reciprocity claims:
the target recorded in the room's door in direction `d`. -/
def Room.doorTarget (r : Room) (d : DoorDirection) : Option String :=
  (r.getDoor d).bind fun door => door.targetRoomId

/-- Modelled from the spec: `roomMatchesConstraints` as the spec words it —
identical to the source predicate except that the `floorNumber` bound check
is applied "only if both template bounds are present"
(`floorNumber` within `[minFloor, maxFloor]` only when the template has
both `minFloor` and `maxFloor`). -/
def roomMatchesConstraintsSpec (room : RoomComponentData)
    (c : RoomConstraints) : Bool :=
  if ¬ (room.doorSlots.any fun slot => decide (slot.direction = c.requiredDoor))
    then false
  else if c.allowedSizes.elim false fun sizes => ¬ sizes.contains room.sizeCategory
    then false
  else if c.requiredType.elim false fun t => decide (room.type ≠ t)
    then false
  else if c.maxDifficulty.elim false fun m => decide (m < room.difficulty)
    then false
  else if c.minDifficulty.elim false fun m => decide (room.difficulty < m)
    then false
  else if c.floorNumber.elim false fun fn =>
      match room.minFloor, room.maxFloor with
      | some mf, some xf => decide (fn < mf) || decide (xf < fn)
      | _, _ => false
    then false
  else if c.requiredTags.elim false fun tags =>
      tags.any fun tag => ¬ ((room.tags.getD []).contains tag)
    then false
  else if c.excludedTags.elim false fun tags =>
      room.tags.elim false fun rtags => tags.any fun tag => rtags.contains tag
    then false
  else if (c.usedRoomIds.getD []).contains room.id
    then false
  else true

/-! ## Claim C9 -/

/-- C9: for every seed and every reachable RNG state, `SeededRandom.next()`
returns a value `v` with `0 ≤ v < 1`.  Proved for every state whatsoever
(`result` is `(s0 + s3) >>> 0 < 2^32`, normalized by `2^32`). -/
theorem C9_next_in_unit_interval (g : SeededRandom) :
    0 ≤ g.nextValue ∧ g.nextValue < 1 := by
  constructor
  · unfold SeededRandom.nextValue
    positivity
  · unfold SeededRandom.nextValue
    rw [div_lt_one (by norm_num)]
    exact_mod_cast g.next_fst_lt

/-! ## Claim C10 -/

/-- C10: calling `Room.addDoor(d, t)` when the room already has a door in
direction `d` silently replaces it with a fresh door that is unlocked, open,
has `targetRoomId = t`, and sits at the wall midpoint — the previous door's
state is discarded. -/
theorem C10_addDoor_replaces (r : Room) (d : DoorDirection)
    (t : Option String) (h : r.hasDoor d = true) :
    (r.addDoor d t).getDoor d =
      some { direction := d, targetRoomId := t, isLocked := false
             isOpen := true, position := r.getDoorPosition d } := by
  unfold Room.addDoor Room.getDoor
  exact getA_setA_self r.doors d _

/-- A room whose north door is locked, closed, and targets `"x"`. -/
def roomC10 : Room :=
  ((Room.mk0 "w" RoomType.normal 7 7 none).addDoor DoorDirection.north
    (some "x")).lockDoors

/-- Witness for C10 at a concrete room with a pre-existing locked door. -/
theorem C10_witness :
    roomC10.hasDoor DoorDirection.north = true ∧
    (roomC10.addDoor DoorDirection.north (some "y")).getDoor
        DoorDirection.north =
      some { direction := DoorDirection.north, targetRoomId := some "y"
             isLocked := false, isOpen := true
             position := roomC10.getDoorPosition DoorDirection.north } :=
  ⟨by decide,
   C10_addDoor_replaces roomC10 DoorDirection.north (some "y") (by decide)⟩

/-! ## Claim C7 -/

/-- Template with only a `minFloor` bound (no `maxFloor`), otherwise
matching everything. -/
def tmplC7 : RoomComponentData :=
  { mkComponent "T7" RoomType.normal [DoorDirection.north] 1 with
      minFloor := some 2 }

/-- Constraints asking for floor 1 through a north door. -/
def consC7 : RoomConstraints :=
  { requiredDoor := DoorDirection.north, allowedSizes := none
    requiredType := none, maxDifficulty := none, minDifficulty := none
    floorNumber := some 1, requiredTags := none, excludedTags := none
    usedRoomIds := none }

/-- C7 counterexample: the code excludes a template on its `minFloor` bound
even though `maxFloor` is absent, while under the claim's reading (floor
check only when both bounds are present) the template matches. -/
theorem C7_counterexample :
    roomMatchesConstraints tmplC7 consC7 = false ∧
    roomMatchesConstraintsSpec tmplC7 consC7 = true := by
  constructor
  · decide
  · decide

set_option maxHeartbeats 1000000 in
/-- C7 amended: the two floor bounds are enforced independently — whenever
`constraints.floorNumber` is given and a present bound is violated
(the floor below a present `minFloor`, or above a present `maxFloor`),
the template is rejected, regardless of whether the other bound is set. -/
theorem C7_floor_bounds_independent (room : RoomComponentData)
    (c : RoomConstraints) (fn : Int) (hfn : c.floorNumber = some fn)
    (hviol : (∃ mf, room.minFloor = some mf ∧ fn < mf) ∨
             (∃ xf, room.maxFloor = some xf ∧ xf < fn)) :
    roomMatchesConstraints room c = false := by
  unfold roomMatchesConstraints
  split_ifs with h1 h2 h3 h4 h5 h6 h7 h8 h9 h10 <;> try rfl
  exfalso
  rcases hviol with ⟨mf, hmf, hlt⟩ | ⟨xf, hxf, hlt⟩
  · exact h6 (by simp [hfn, hmf, hlt])
  · exact h7 (by simp [hfn, hxf, hlt])

/-- Witness for the amended C7 at the concrete template/constraints. -/
theorem C7_witness : roomMatchesConstraints tmplC7 consC7 = false :=
  C7_floor_bounds_independent tmplC7 consC7 1 (by decide)
    (Or.inl ⟨2, by decide, by decide⟩)

/-! ## Claim C8 -/

/-- A generator state in which the room furthest from the start (`room_1` at
`(1,0)`) has all four grid neighbours occupied. -/
def stC8 : GenState :=
  { rng := SeededRandom.setSeed 12345
    rooms := [("room_0", Room.mk0 "room_0" RoomType.start 7 7 none),
              ("room_1",
               (Room.mk0 "room_1" RoomType.normal 7 7 none).setGridPosition 1 0)]
    grid := [((0, 0), "room_0"), ((1, 0), "room_1"), ((2, 0), "x1"),
             ((1, 1), "x2"), ((1, -1), "x3")] }

def startC8 : Room := Room.mk0 "room_0" RoomType.start 7 7 none

set_option maxRecDepth 10000 in
/-- C8: with all four neighbours of the furthest room occupied,
`placeBossRoom` returns the furthest room — but its type is NOT changed to
BOSS: the fallback line `furthestRoom.type === RoomType.BOSS;` is a
comparison, not an assignment, so the room stays NORMAL, contradicting the
intent stated in the adjacent source comment ("convert furthest room to
boss"). -/
theorem C8_fallback_keeps_type :
    ((getA stC8.grid (2, 0)).isSome ∧ (getA stC8.grid (0, 0)).isSome ∧
     (getA stC8.grid (1, 1)).isSome ∧ (getA stC8.grid (1, -1)).isSome) ∧
    (DungeonGenerator.placeBossRoom stC8 startC8).1.id = "room_1" ∧
    (DungeonGenerator.placeBossRoom stC8 startC8).1.type = RoomType.normal ∧
    (DungeonGenerator.placeBossRoom stC8 startC8).1.type ≠ RoomType.boss := by
  refine ⟨by decide, ?_, ?_, ?_⟩ <;> decide

/-! ## Claim C5 -/

set_option maxRecDepth 10000 in
/-- C5: `generate({floorNumber:1, seed:12345, minRooms:6, maxRooms:6})`
yields exactly 7 rooms — one START, five NORMAL, one BOSS — with the start
room at grid position `(0,0)`. -/
theorem C5_scenarioA :
    (DungeonGenerator.generate cfg12345 0).rooms.length = 7 ∧
    ((DungeonGenerator.generate cfg12345 0).rooms.filter fun r =>
      decide (r.type = RoomType.start)).length = 1 ∧
    ((DungeonGenerator.generate cfg12345 0).rooms.filter fun r =>
      decide (r.type = RoomType.normal)).length = 5 ∧
    ((DungeonGenerator.generate cfg12345 0).rooms.filter fun r =>
      decide (r.type = RoomType.boss)).length = 1 ∧
    (DungeonGenerator.generate cfg12345 0).startRoom.gridX = 0 ∧
    (DungeonGenerator.generate cfg12345 0).startRoom.gridY = 0 := by
  rw [DungeonGenerator.generate12345_eval]
  refine ⟨?_, ?_, ?_, ?_, ?_, ?_⟩ <;> decide

/-! ## Claims C1, C2, C4, C6 — counterexamples and amended theorems -/

/-- The live room object with the given id (defaulting for absent ids). -/
def roomOf (st : LiveState) (rid : String) : Room :=
  (getA st.rooms rid).getD (Room.mk0 "" RoomType.normal 0 0 none)

set_option maxRecDepth 10000 in
/-- C1 counterexample: in the catalog-`catA` session, after three traversals
the cell `(0,-1)` is occupied by `room_3_R3`; the stale pending door
`(room_0_ST, north)` — whose target cell was filled through another path —
is then traversed, and the cell is reassigned to `room_4_R4`, with both
rooms of the floor now sharing `(gridX, gridY) = (0,-1)`. -/
theorem C1_counterexample :
    getA stA4.grid (0, -1) = some "room_3_R3" ∧
    getA stA5.grid (0, -1) = some "room_4_R4" ∧
    (getA stA5.rooms "room_3_R3").isSome ∧
    (getA stA5.rooms "room_4_R4").isSome ∧
    ((roomOf stA5 "room_3_R3").gridX, (roomOf stA5 "room_3_R3").gridY) = (0, -1) ∧
    ((roomOf stA5 "room_4_R4").gridX, (roomOf stA5 "room_4_R4").gridY) = (0, -1) := by
  refine ⟨?_, ?_, ?_, ?_, ?_, ?_⟩ <;> decide

set_option maxRecDepth 10000 in
/-- C2 counterexample: the catalog-`catC` session reaches a fully explored
floor (no pending doors remain, so no further room can ever be generated)
with zero BOSS rooms and the boss flag still unset. -/
theorem C2_counterexample :
    LiveDungeonManager.isFullyExplored stC2 = true ∧
    stC2.bossPlaced = false ∧
    (stC2.rooms.filter fun p => decide (p.2.type = RoomType.boss)).length = 0 ∧
    stC2.rooms.length = 2 := by
  refine ⟨?_, ?_, ?_, ?_⟩ <;> decide

set_option maxRecDepth 10000 in
/-- C4 counterexample: in the catalog-`catB` session, `room_3_B3`'s east
door targets the start room, but the start room has no west door at all —
the reciprocity biconditional fails for `A = room_3_B3`, `B = room_0_STB`,
`d = east`. -/
theorem C4_counterexample :
    (roomOf stB4 "room_3_B3").doorTarget DoorDirection.east =
      some "room_0_STB" ∧
    (roomOf stB4 "room_0_STB").getDoor DoorDirection.west = none ∧
    ¬ ((roomOf stB4 "room_3_B3").doorTarget DoorDirection.east =
          some "room_0_STB" ↔
       (roomOf stB4 "room_0_STB").doorTarget DoorDirection.west =
          some "room_3_B3") := by
  refine ⟨?_, ?_, ?_⟩ <;> decide

/-- C6 counterexample: `initialize()` on an empty registry throws
(`Except.error`), rather than reporting null/empty — a registry query with
no match makes a core operation throw. -/
theorem C6_counterexample :
    LiveDungeonManager.initFloor [] live0 =
      Except.error "No valid start room component found" := rfl

/-- Whether `initialize()` throws. -/
def initFloorThrows (cat : List RoomComponentData) (st : LiveState) : Bool :=
  match LiveDungeonManager.initFloor cat st with
  | Except.error _ => true
  | Except.ok _ => false

lemma weightedScan_isSome {α : Type} :
    ∀ (items : List α) (weights : List Nat) (r : Int) (last : Option α),
      (last.isSome = true ∨ (items ≠ [] ∧ weights ≠ [])) →
      (weightedScan items weights r last).isSome = true := by
  intro items
  induction items with
  | nil =>
    intro weights r last h
    rcases h with h | ⟨hi, _⟩
    · simpa [weightedScan] using h
    · exact absurd rfl hi
  | cons x xs ih =>
    intro weights r last h
    cases weights with
    | nil =>
      rcases h with h | ⟨_, hw⟩
      · simpa [weightedScan] using h
      · exact absurd rfl hw
    | cons w ws =>
      unfold weightedScan
      dsimp only
      split
      · rfl
      · exact ih ws _ (some x) (Or.inl rfl)

/-- `findMatching` yields `null` exactly when nothing matches (otherwise the
weighted pick always yields a component). -/
lemma findMatching_none_iff (cat : List RoomComponentData)
    (c : RoomConstraints) (rng : SeededRandom) :
    (RoomComponentRegistry.findMatching cat c rng).1 = none ↔
      RoomComponentRegistry.findAllMatching cat c = [] := by
  unfold RoomComponentRegistry.findMatching
  by_cases h : (RoomComponentRegistry.findAllMatching cat c).isEmpty
  · simp only [h, if_pos]
    simpa [List.isEmpty_iff] using h
  · simp only [h, if_neg, Bool.false_eq_true, if_false]
    have hne : RoomComponentRegistry.findAllMatching cat c ≠ [] := by
      simpa [List.isEmpty_iff] using h
    constructor
    · intro hnone
      exfalso
      have hs : ((rng.weightedPick (RoomComponentRegistry.findAllMatching cat c)
          ((RoomComponentRegistry.findAllMatching cat c).map
            fun r => r.weight.getD 1)).1).isSome = true := by
        unfold SeededRandom.weightedPick
        dsimp only
        exact weightedScan_isSome _ _ _ _ (Or.inr ⟨hne, by simpa using hne⟩)
      rw [hnone] at hs
      cases hs
    · intro hempty
      exact absurd hempty hne

/-- C6 amended: registry queries signal NotFound by `null`/empty — never by
an exception — and `enterDoor`'s generation shortfalls likewise yield
`null`; but `initialize()` does throw, exactly when no START component (with
a north slot) matches. -/
theorem C6_shortfalls_null_except_initialize :
    (∀ (cat : List RoomComponentData) (c : RoomConstraints)
       (rng : SeededRandom),
      ((RoomComponentRegistry.findMatching cat c rng).1 = none ↔
        RoomComponentRegistry.findAllMatching cat c = [])) ∧
    (∀ (cat : List RoomComponentData) (st : LiveState),
      (initFloorThrows cat st = true ↔
        RoomComponentRegistry.findAllMatching cat
          LiveDungeonManager.startConstraints = [])) := by
  constructor
  · exact findMatching_none_iff
  · intro cat st
    unfold initFloorThrows LiveDungeonManager.initFloor
    rw [← findMatching_none_iff cat LiveDungeonManager.startConstraints st.rng]
    cases hm : (RoomComponentRegistry.findMatching cat
        LiveDungeonManager.startConstraints st.rng).1 with
    | none => simp [hm]
    | some c => simp [hm]

/-! ## Claim C1 — amended theorem: grid cells are preserved whenever the
generated room lands on an unoccupied cell -/

namespace LiveDungeonManager

lemma updateRoom_grid (st : LiveState) (rid : String) (f : Room → Room) :
    (updateRoom st rid f).grid = st.grid := by
  unfold updateRoom
  split <;> rfl

lemma connectRooms_grid (st : LiveState) (a b : String) (d : DoorDirection) :
    (connectRooms st a b d).grid = st.grid := by
  unfold connectRooms
  rw [updateRoom_grid, updateRoom_grid]

lemma registerPendingStep_grid (st : LiveState) (room : Room) (door : Door) :
    (registerPendingStep st room door).grid = st.grid := by
  unfold registerPendingStep
  dsimp only
  split
  · rw [connectRooms_grid]
  · rfl

lemma registerPendingDoors_grid (st : LiveState) (room : Room) :
    (registerPendingDoors st room).grid = st.grid := by
  unfold registerPendingDoors
  have h : ∀ (ds : List Door) (s : LiveState),
      (ds.foldl (fun s door => registerPendingStep s room door) s).grid =
        s.grid := by
    intro ds
    induction ds with
    | nil => intro s; rfl
    | cons d ds ih =>
      intro s
      rw [List.foldl_cons, ih, registerPendingStep_grid]
  exact h room.getDoors st

lemma registerPendingDoorsById_grid (st : LiveState) (rid : String) :
    (registerPendingDoorsById st rid).grid = st.grid := by
  unfold registerPendingDoorsById
  split
  · rfl
  · rw [registerPendingDoors_grid]

lemma setCurrentRoom_grid (st : LiveState) (rid : String) :
    (setCurrentRoom st rid).grid = st.grid := by
  unfold setCurrentRoom
  split
  · rfl
  · rfl

lemma generateRoomForDoor_grid_preserve (cat : List RoomComponentData)
    (st : LiveState) (fr : Room) (d : DoorDirection) (p : Int × Int)
    (rid : String) (hp : getA st.grid p = some rid)
    (hne : p ≠ getAdjacentPosition fr.gridX fr.gridY d) :
    getA (generateRoomForDoor cat st fr d).2.grid p = some rid := by
  unfold generateRoomForDoor createRoomAtDoor createRoomFromComponent
  dsimp only
  repeat' split
  all_goals dsimp only
  all_goals (first
    | exact hp
    | (rw [getA_setA_ne _ _ _ _ hne]; exact hp))

/-- The cell adjacent to room `fid` in direction `d` (where `enterDoor`
would place a generated room) is unoccupied. -/
def targetFree (st : LiveState) (fid : String) (d : DoorDirection) : Bool :=
  match getA st.rooms fid with
  | none => true
  | some fr => (getA st.grid (getAdjacentPosition fr.gridX fr.gridY d)).isNone

end LiveDungeonManager

/-- C1 amended: an `enterDoor` call whose generated room would land on an
unoccupied cell never reassigns any occupied grid cell (the reassignment of
the counterexample can only happen through a stale pending door whose
target cell was filled via another path). -/
theorem C1_enterDoor_preserves_occupied_cells (cat : List RoomComponentData)
    (st : LiveState) (fid : String) (d : DoorDirection) (p : Int × Int)
    (rid : String) (hfree : LiveDungeonManager.targetFree st fid d = true)
    (hocc : getA st.grid p = some rid) :
    getA (LiveDungeonManager.enterDoor cat st fid d).2.grid p = some rid := by
  unfold LiveDungeonManager.enterDoor
  cases hfr : getA st.rooms fid with
  | none => exact hocc
  | some fr =>
    dsimp only
    cases hpend : getA st.pendingDoors (fid, d) with
    | none =>
      dsimp only
      cases hex : getA st.grid
          (LiveDungeonManager.getAdjacentPosition fr.gridX fr.gridY d) with
      | none => exact hocc
      | some ex =>
        dsimp only
        rw [LiveDungeonManager.setCurrentRoom_grid]
        exact hocc
    | some pd =>
      dsimp only
      have hne : p ≠ LiveDungeonManager.getAdjacentPosition fr.gridX fr.gridY d := by
        intro he
        rw [he] at hocc
        simp [LiveDungeonManager.targetFree, hfr, hocc] at hfree
      cases hg : (LiveDungeonManager.generateRoomForDoor cat st fr d).1 with
      | none =>
        dsimp only
        exact LiveDungeonManager.generateRoomForDoor_grid_preserve
          cat st fr d p rid hocc hne
      | some newRoom =>
        dsimp only
        rw [LiveDungeonManager.setCurrentRoom_grid,
          LiveDungeonManager.registerPendingDoorsById_grid,
          LiveDungeonManager.connectRooms_grid]
        dsimp only
        exact LiveDungeonManager.generateRoomForDoor_grid_preserve
          cat st fr d p rid hocc hne

set_option maxRecDepth 10000 in
/-- Witness for the amended C1: in the `catC` session, entering the start
room's fresh north door leaves the start room's cell assignment intact. -/
theorem C1_witness :
    LiveDungeonManager.targetFree stC1 "room_0_STC" DoorDirection.north = true ∧
    getA stC1.grid (0, 0) = some "room_0_STC" ∧
    getA (LiveDungeonManager.enterDoor catC stC1 "room_0_STC"
        DoorDirection.north).2.grid (0, 0) = some "room_0_STC" :=
  ⟨by decide, by decide,
   C1_enterDoor_preserves_occupied_cells catC stC1 "room_0_STC"
     DoorDirection.north (0, 0) "room_0_STC" (by decide) (by decide)⟩

/-! ## Claim C2 — amended theorem: the forced-BOSS branch fires at most
once in any session -/

namespace LiveDungeonManager

lemma updateRoom_bossPlaced (st : LiveState) (rid : String) (f : Room → Room) :
    (updateRoom st rid f).bossPlaced = st.bossPlaced := by
  unfold updateRoom
  split <;> rfl

lemma connectRooms_bossPlaced (st : LiveState) (a b : String)
    (d : DoorDirection) : (connectRooms st a b d).bossPlaced = st.bossPlaced := by
  unfold connectRooms
  rw [updateRoom_bossPlaced, updateRoom_bossPlaced]

lemma registerPendingStep_bossPlaced (st : LiveState) (room : Room)
    (door : Door) :
    (registerPendingStep st room door).bossPlaced = st.bossPlaced := by
  unfold registerPendingStep
  dsimp only
  split
  · rw [connectRooms_bossPlaced]
  · rfl

lemma registerPendingDoors_bossPlaced (st : LiveState) (room : Room) :
    (registerPendingDoors st room).bossPlaced = st.bossPlaced := by
  unfold registerPendingDoors
  have h : ∀ (ds : List Door) (s : LiveState),
      (ds.foldl (fun s door => registerPendingStep s room door) s).bossPlaced =
        s.bossPlaced := by
    intro ds
    induction ds with
    | nil => intro s; rfl
    | cons d ds ih =>
      intro s
      rw [List.foldl_cons, ih, registerPendingStep_bossPlaced]
  exact h room.getDoors st

lemma registerPendingDoorsById_bossPlaced (st : LiveState) (rid : String) :
    (registerPendingDoorsById st rid).bossPlaced = st.bossPlaced := by
  unfold registerPendingDoorsById
  split
  · rfl
  · rw [registerPendingDoors_bossPlaced]

lemma setCurrentRoom_bossPlaced (st : LiveState) (rid : String) :
    (setCurrentRoom st rid).bossPlaced = st.bossPlaced := by
  unfold setCurrentRoom
  split <;> rfl

lemma clearCurrentRoom_bossPlaced (st : LiveState) :
    (clearCurrentRoom st).bossPlaced = st.bossPlaced := by
  unfold clearCurrentRoom
  split
  · rfl
  · rw [updateRoom_bossPlaced]

lemma generateRoomForDoor_bossPlaced (cat : List RoomComponentData)
    (st : LiveState) (fr : Room) (d : DoorDirection) :
    (generateRoomForDoor cat st fr d).2.bossPlaced =
      (st.bossPlaced ||
        (!st.bossPlaced && decide (st.maxRooms - 1 ≤ st.roomCount))) := by
  unfold generateRoomForDoor createRoomAtDoor createRoomFromComponent
  by_cases h : (!st.bossPlaced && decide (st.maxRooms - 1 ≤ st.roomCount)) = true
  · simp only [if_pos h]
    repeat' split
    all_goals dsimp only
    all_goals rw [h]
    all_goals simp
  · have hg : (!st.bossPlaced && decide (st.maxRooms - 1 ≤ st.roomCount)) = false := by
      revert h
      cases (!st.bossPlaced && decide (st.maxRooms - 1 ≤ st.roomCount)) <;> simp
    simp only [if_neg h]
    repeat' split
    all_goals dsimp only
    all_goals rw [hg]
    all_goals simp

lemma enterDoor_bossPlaced_of_fires (cat : List RoomComponentData)
    (st : LiveState) (fid : String) (d : DoorDirection)
    (h : forcedBossFires st fid d = true) :
    ((enterDoor cat st fid d).2).bossPlaced = true := by
  unfold forcedBossFires at h
  simp only [Bool.and_eq_true, Bool.not_eq_true', decide_eq_true_eq,
    Option.isSome_iff_exists] at h
  obtain ⟨⟨⟨⟨fr, hfr⟩, ⟨pd, hpend⟩⟩, hbp⟩, hcount⟩ := h
  unfold enterDoor
  rw [hfr]
  dsimp only
  rw [hpend]
  dsimp only
  have hgen : (generateRoomForDoor cat st fr d).2.bossPlaced = true := by
    rw [generateRoomForDoor_bossPlaced, hbp]
    simp [hcount]
  cases hg : (generateRoomForDoor cat st fr d).1 with
  | none =>
    dsimp only
    exact hgen
  | some newRoom =>
    dsimp only
    rw [setCurrentRoom_bossPlaced, registerPendingDoorsById_bossPlaced,
      connectRooms_bossPlaced]
    exact hgen

lemma enterDoor_bossPlaced_of_true (cat : List RoomComponentData)
    (st : LiveState) (fid : String) (d : DoorDirection)
    (h : st.bossPlaced = true) :
    ((enterDoor cat st fid d).2).bossPlaced = true := by
  unfold enterDoor
  cases hfr : getA st.rooms fid with
  | none => exact h
  | some fr =>
    dsimp only
    cases hpend : getA st.pendingDoors (fid, d) with
    | none =>
      dsimp only
      split
      · rw [setCurrentRoom_bossPlaced]
        exact h
      · exact h
    | some pd =>
      dsimp only
      have hgen : (generateRoomForDoor cat st fr d).2.bossPlaced = true := by
        rw [generateRoomForDoor_bossPlaced, h]
        rfl
      cases hg : (generateRoomForDoor cat st fr d).1 with
      | none => exact hgen
      | some newRoom =>
        dsimp only
        rw [setCurrentRoom_bossPlaced, registerPendingDoorsById_bossPlaced,
          connectRooms_bossPlaced]
        exact hgen

lemma runOp_bossPlaced_of_true (cat : List RoomComponentData)
    (st : LiveState) (op : LiveOp) (h : st.bossPlaced = true) :
    (runOp cat st op).bossPlaced = true := by
  cases op with
  | enter fid d => exact enterDoor_bossPlaced_of_true cat st fid d h
  | clearCur => rw [runOp, clearCurrentRoom_bossPlaced]; exact h

lemma forcedBossFires_false_of_placed (st : LiveState) (fid : String)
    (d : DoorDirection) (h : st.bossPlaced = true) :
    forcedBossFires st fid d = false := by
  simp [forcedBossFires, h]

lemma countForced_zero_of_placed (cat : List RoomComponentData) :
    ∀ (ops : List LiveOp) (st : LiveState), st.bossPlaced = true →
      countForced cat ops st = 0 := by
  intro ops
  induction ops with
  | nil => intro st _; rfl
  | cons op rest ih =>
    intro st h
    cases op with
    | enter fid d =>
      unfold countForced
      rw [forcedBossFires_false_of_placed st fid d h]
      simpa using ih _ (runOp_bossPlaced_of_true cat st _ h)
    | clearCur =>
      unfold countForced
      exact ih _ (runOp_bossPlaced_of_true cat st _ h)

end LiveDungeonManager

/-- C2 amended: across every session (any sequence of `enterDoor` /
`clearCurrentRoom` calls from any state), the forced-BOSS branch of
`generateRoomForDoor` — the only mechanism that latches `bossPlaced` —
executes at most once; sessions with zero BOSS rooms exist (see the
counterexample). -/
theorem C2_forced_boss_at_most_once (cat : List RoomComponentData) :
    ∀ (ops : List LiveDungeonManager.LiveOp) (st : LiveState),
      LiveDungeonManager.countForced cat ops st ≤ 1 := by
  intro ops
  induction ops with
  | nil =>
    intro st
    simp [LiveDungeonManager.countForced]
  | cons op rest ih =>
    intro st
    cases op with
    | clearCur =>
      unfold LiveDungeonManager.countForced
      exact ih _
    | enter fid d =>
      unfold LiveDungeonManager.countForced
      by_cases hf : LiveDungeonManager.forcedBossFires st fid d = true
      · rw [if_pos hf]
        have h1 : ((LiveDungeonManager.runOp cat st
            (LiveDungeonManager.LiveOp.enter fid d))).bossPlaced = true :=
          LiveDungeonManager.enterDoor_bossPlaced_of_fires cat st fid d hf
        rw [LiveDungeonManager.countForced_zero_of_placed cat rest _ h1]
      · rw [if_neg hf]
        simpa using ih _

/-! ## Injectivity of the decimal room-id suffix -/

lemma digitChar_inj_lt10 : ∀ a < 10, ∀ b < 10, Nat.digitChar a = Nat.digitChar b → a = b := by
  decide

lemma toDigitsCore_eq_digits (b : Nat) (h2 : 1 < b) :
    ∀ (f n : Nat) (ds : List Char), 0 < n → n < b ^ f →
      Nat.toDigitsCore b f n ds =
        ((Nat.digits b n).map Nat.digitChar).reverse ++ ds := by
  intro f
  induction f with
  | zero =>
    intro n ds hn hf
    simp at hf
    omega
  | succ f ih =>
    intro n ds hn hf
    rw [Nat.toDigitsCore]
    by_cases hz : n / b = 0
    · rw [if_pos hz]
      have hnb : n < b := by
        rcases Nat.lt_or_ge n b with h | h
        · exact h
        · exact absurd hz (by
            have := Nat.div_le_div_right (c := b) h
            rw [Nat.div_self (by omega)] at this
            omega)
      rw [Nat.digits_def' h2 hn, hz, Nat.digits_zero]
      rw [Nat.mod_eq_of_lt hnb]
      simp
    · rw [if_neg hz]
      have hlt : n / b < b ^ f := by
        have hb0 : 0 < b := by omega
        rw [Nat.div_lt_iff_lt_mul hb0]
        calc n < b ^ (f + 1) := hf
        _ = b ^ f * b := by ring
      rw [ih (n / b) _ (Nat.pos_of_ne_zero hz) hlt]
      rw [Nat.digits_def' h2 hn]
      simp

lemma map_digitChar_inj :
    ∀ (l1 l2 : List Nat), (∀ x ∈ l1, x < 10) → (∀ x ∈ l2, x < 10) →
      l1.map Nat.digitChar = l2.map Nat.digitChar → l1 = l2 := by
  intro l1
  induction l1 with
  | nil =>
    intro l2 _ _ h
    cases l2 with
    | nil => rfl
    | cons y ys => simp at h
  | cons x xs ih =>
    intro l2 h1 h2 h
    cases l2 with
    | nil => simp at h
    | cons y ys =>
      simp only [List.map_cons, List.cons.injEq] at h
      have hx := digitChar_inj_lt10 x (h1 x (by simp)) y (h2 y (by simp)) h.1
      rw [hx, ih ys (fun z hz => h1 z (by simp [hz])) (fun z hz => h2 z (by simp [hz])) h.2]

lemma Nat.repr_inj_aux : Function.Injective Nat.repr := by
  intro m n h
  have hd : ∀ k : Nat, 0 < k → Nat.repr k =
      ((((Nat.digits 10 k).map Nat.digitChar).reverse).asString) := by
    intro k hk
    rw [Nat.repr, Nat.toDigits]
    rw [toDigitsCore_eq_digits 10 (by norm_num) (k + 1) k [] hk ((Nat.lt_pow_self (by norm_num) k).trans_le
      (Nat.pow_le_pow_right (by norm_num) (by omega)))]
    simp
  rcases Nat.eq_zero_or_pos m with hm | hm <;> rcases Nat.eq_zero_or_pos n with hn | hn
  · omega
  · exfalso
    subst hm
    rw [hd n hn] at h
    have h0 : Nat.repr 0 = "0" := rfl
    rw [h0] at h
    have hlist : ['0'] = ((Nat.digits 10 n).map Nat.digitChar).reverse := by
      have := congrArg String.data h
      simpa [List.asString] using this
    have hrev : (Nat.digits 10 n).map Nat.digitChar = ['0'] := by
      have := congrArg List.reverse hlist
      simpa using this.symm
    have : Nat.digits 10 n = [0] := by
      apply map_digitChar_inj _ [0]
      · intro x hx
        exact Nat.digits_lt_base (by norm_num) hx
      · intro x hx
        simp at hx
        omega
      · simpa using hrev
    have h1 := Nat.ofDigits_digits 10 n
    rw [this] at h1
    simp [Nat.ofDigits] at h1
    omega
  · exfalso
    subst hn
    rw [hd m hm] at h
    have h0 : Nat.repr 0 = "0" := rfl
    rw [h0] at h
    have hlist : ((Nat.digits 10 m).map Nat.digitChar).reverse = ['0'] := by
      have := congrArg String.data h
      simpa [List.asString] using this
    have hrev : (Nat.digits 10 m).map Nat.digitChar = ['0'] := by
      have := congrArg List.reverse hlist
      simpa using this
    have hm0 : Nat.digits 10 m = [0] := by
      apply map_digitChar_inj _ [0]
      · intro x hx
        exact Nat.digits_lt_base (by norm_num) hx
      · intro x hx
        simp at hx
        omega
      · simpa using hrev
    have := Nat.ofDigits_digits 10 m
    rw [hm0] at this
    simp [Nat.ofDigits] at this
    omega
  · rw [hd m hm, hd n hn] at h
    have hlist := congrArg String.data h
    simp only [List.asString] at hlist
    have hrev : (Nat.digits 10 m).map Nat.digitChar = (Nat.digits 10 n).map Nat.digitChar := by
      have := congrArg List.reverse hlist
      simpa using this
    have hdig : Nat.digits 10 m = Nat.digits 10 n := by
      apply map_digitChar_inj
      · intro x hx
        exact Nat.digits_lt_base (by norm_num) hx
      · intro x hx
        exact Nat.digits_lt_base (by norm_num) hx
      · exact hrev
    have h1 := Nat.ofDigits_digits 10 m
    have h2 := Nat.ofDigits_digits 10 n
    rw [← h1, ← h2, hdig]

/-- The id `room_${n}` of the n-th eagerly created room. -/
def roomId (n : Nat) : String := s!"room_{n}"

lemma roomId_injective : Function.Injective roomId := by
  intro a b h
  apply Nat.repr_inj_aux
  have hd := congrArg String.data h
  simp [roomId, String.data_append] at hd
  exact String.ext hd

/-- The keys of the first `n` eagerly created rooms. -/
def idList (n : Nat) : List String := (List.range n).map roomId

lemma idList_nodup (n : Nat) : (idList n).Nodup :=
  (List.nodup_range n).map roomId_injective

lemma idList_succ (n : Nat) : idList (n + 1) = idList n ++ [roomId n] := by
  unfold idList
  rw [List.range_succ, List.map_append]
  rfl

lemma roomId_not_mem_idList (n : Nat) : roomId n ∉ idList n := by
  unfold idList
  intro h
  rcases List.mem_map.mp h with ⟨m, hm, he⟩
  have := roomId_injective he
  subst this
  exact absurd (List.mem_range.mp hm) (lt_irrefl _)

lemma getA_of_mem_nodupKeys {κ α : Type} [DecidableEq κ] :
    ∀ (l : List (κ × α)), (l.map Prod.fst).Nodup →
      ∀ k v, (k, v) ∈ l → getA l k = some v := by
  intro l
  induction l with
  | nil => intro _ k v hm; cases hm
  | cons p rest ih =>
    intro hnd k v hm
    cases p with
    | mk a b =>
      rcases List.mem_cons.mp hm with he | hm'
      · cases he
        simp [getA]
      · have hne : a ≠ k := by
          intro hh
          subst hh
          have : a ∈ rest.map Prod.fst :=
            List.mem_map.mpr ⟨(a, v), hm', rfl⟩
          exact absurd this (List.nodup_cons.mp (by simpa using hnd)).1
        simp only [getA, if_neg hne]
        exact ih (List.nodup_cons.mp (by simpa using hnd)).2 k v hm'

lemma mem_unique_of_nodupKeys {κ α : Type} [DecidableEq κ]
    (l : List (κ × α)) (hnd : (l.map Prod.fst).Nodup) (k : κ) (v1 v2 : α)
    (h1 : (k, v1) ∈ l) (h2 : (k, v2) ∈ l) : v1 = v2 := by
  have g1 := getA_of_mem_nodupKeys l hnd k v1 h1
  have g2 := getA_of_mem_nodupKeys l hnd k v2 h2
  rw [g1] at g2
  injection g2

/-! ## The eager floor as a graph -/

namespace DungeonGenerator

/-- The cell displacement of a direction (grid north is `y - 1`). -/
def deltaOf : DoorDirection → Int × Int
  | DoorDirection.north => (0, -1)
  | DoorDirection.south => (0, 1)
  | DoorDirection.east => (1, 0)
  | DoorDirection.west => (-1, 0)

/-- The neighbour cell of `p` in direction `d`. -/
def adjPos (p : Int × Int) (d : DoorDirection) : Int × Int :=
  (p.1 + (deltaOf d).1, p.2 + (deltaOf d).2)

/-- Grid adjacency. -/
def Adjacent (p q : Int × Int) : Prop := ∃ d, q = adjPos p d

/-- A cell holds a room. -/
def occupied (grid : List ((Int × Int) × String)) (p : Int × Int) : Prop :=
  (getA grid p).isSome = true

/-- Connectivity within the grid: a path of occupied cells from `p` to `q`
(each step moves to an occupied adjacent cell). -/
def CellConn (grid : List ((Int × Int) × String)) (p q : Int × Int) : Prop :=
  Relation.ReflTransGen (fun a b => occupied grid b ∧ Adjacent a b) p q

/-- Every frontier entry is adjacent to some occupied cell. -/
def FrontierOK (grid : List ((Int × Int) × String))
    (frontier : List (Int × Int)) : Prop :=
  ∀ p ∈ frontier, ∃ q, occupied grid q ∧ Adjacent q p

/-- The generator-state invariant maintained through the eager pipeline
(before the connection pass, no room has any door). -/
structure GInv (st : GenState) : Prop where
  idsIndexed : st.rooms.map Prod.fst = idList st.rooms.length
  coh1 : ∀ p rid, getA st.grid p = some rid →
    ∃ room, (rid, room) ∈ st.rooms ∧ room.gridX = p.1 ∧ room.gridY = p.2 ∧
      room.id = rid
  coh2 : ∀ rid room, (rid, room) ∈ st.rooms →
    getA st.grid (room.gridX, room.gridY) = some rid ∧ room.id = rid
  noDoors : ∀ rid room, (rid, room) ∈ st.rooms → room.doors = []
  conn : ∀ rid room, (rid, room) ∈ st.rooms →
    CellConn st.grid (0, 0) (room.gridX, room.gridY)
  startOcc : occupied st.grid (0, 0)

lemma adjacent_symm {p q : Int × Int} (h : Adjacent p q) : Adjacent q p := by
  rcases h with ⟨d, hd⟩
  subst hd
  cases d with
  | north => exact ⟨DoorDirection.south, by simp [adjPos, deltaOf]⟩
  | south => exact ⟨DoorDirection.north, by simp [adjPos, deltaOf]⟩
  | east => exact ⟨DoorDirection.west, by simp [adjPos, deltaOf]⟩
  | west => exact ⟨DoorDirection.east, by simp [adjPos, deltaOf]⟩

lemma adjPos_opposite (p : Int × Int) (d : DoorDirection) :
    adjPos (adjPos p d) (getOppositeDirection d) = p := by
  cases d <;> simp [adjPos, deltaOf, getOppositeDirection]

lemma occupied_setA (grid : List ((Int × Int) × String)) (k p : Int × Int)
    (v : String) (h : occupied grid p) : occupied (setA grid k v) p := by
  by_cases he : p = k
  · subst he
    unfold occupied
    rw [getA_setA_self]
    rfl
  · unfold occupied at h ⊢
    rw [getA_setA_ne _ _ _ _ he]
    exact h

lemma cellConn_setA (grid : List ((Int × Int) × String)) (k : Int × Int)
    (v : String) {p q : Int × Int} (h : CellConn grid p q) :
    CellConn (setA grid k v) p q := by
  induction h with
  | refl => exact Relation.ReflTransGen.refl
  | tail _ hs ih =>
    exact Relation.ReflTransGen.tail ih ⟨occupied_setA _ _ _ _ hs.1, hs.2⟩

/-- A connectivity path can be walked backwards when both endpoints'
cells are occupied (every node of the reversed path is then occupied). -/
lemma cellConn_symm (grid : List ((Int × Int) × String)) {p q : Int × Int}
    (hp : occupied grid p) (h : CellConn grid p q) : CellConn grid q p := by
  induction h with
  | refl => exact Relation.ReflTransGen.refl
  | tail hpath hs ih =>
    rename_i b c
    have hb : occupied grid b := by
      cases hpath with
      | refl => exact hp
      | tail _ hs' => exact hs'.1
    exact Relation.ReflTransGen.head ⟨hb, adjacent_symm hs.2⟩ ih

end DungeonGenerator

namespace DungeonGenerator

lemma createRoom_grid_eq (st : GenState) (t : RoomType) (x y : Int) :
    (createRoom st t x y).2.grid =
      setA st.grid (x, y) (roomId st.rooms.length) := rfl

lemma createRoom_rooms_eq (st : GenState) (t : RoomType) (x y : Int) :
    (createRoom st t x y).2.rooms =
      st.rooms ++ [(roomId st.rooms.length, (createRoom st t x y).1)] := rfl

lemma createRoom_room_basic (st : GenState) (t : RoomType) (x y : Int) :
    (createRoom st t x y).1.gridX = x ∧ (createRoom st t x y).1.gridY = y ∧
    (createRoom st t x y).1.id = roomId st.rooms.length ∧
    (createRoom st t x y).1.doors = [] ∧
    (createRoom st t x y).1.type = t :=
  ⟨rfl, rfl, rfl, rfl, rfl⟩

lemma createRoom_inv (st : GenState) (t : RoomType) (x y : Int)
    (hinv : GInv st) (hfree : getA st.grid (x, y) = none)
    (hconn : CellConn (setA st.grid (x, y) (roomId st.rooms.length))
      (0, 0) (x, y)) :
    GInv (createRoom st t x y).2 := by
  have hgrid := createRoom_grid_eq st t x y
  have hrooms := createRoom_rooms_eq st t x y
  obtain ⟨hbx, hby, hbid, hbdoors, _⟩ := createRoom_room_basic st t x y
  constructor
  · rw [hrooms]
    rw [List.map_append, hinv.idsIndexed]
    simp [idList_succ]
  · intro p rid hg
    rw [hgrid] at hg
    by_cases he : p = (x, y)
    · subst he
      rw [getA_setA_self] at hg
      injection hg with h1
      subst h1
      exact ⟨(createRoom st t x y).1,
        by rw [hrooms]; exact List.mem_append_right _ (by simp),
        hbx, hby, hbid⟩
    · rw [getA_setA_ne _ _ _ _ he] at hg
      rcases hinv.coh1 p rid hg with ⟨r, hm, h1, h2, h3⟩
      exact ⟨r, by rw [hrooms]; exact List.mem_append_left _ hm, h1, h2, h3⟩
  · intro rid r hm
    rw [hrooms] at hm
    rcases List.mem_append.mp hm with hm | hm
    · have h2 := hinv.coh2 rid r hm
      have hne : ((r.gridX, r.gridY) : Int × Int) ≠ (x, y) := by
        intro hh
        rw [hh, hfree] at h2
        cases h2.1
    -- the cell of an old room differs from the fresh cell
      rw [hgrid, getA_setA_ne _ _ _ _ hne]
      exact h2
    · simp only [List.mem_singleton] at hm
      cases hm
      rw [hgrid, hbx, hby]
      exact ⟨getA_setA_self _ _ _, hbid⟩
  · intro rid r hm
    rw [hrooms] at hm
    rcases List.mem_append.mp hm with hm | hm
    · exact hinv.noDoors rid r hm
    · simp only [List.mem_singleton] at hm
      cases hm
      exact hbdoors
  · intro rid r hm
    rw [hrooms] at hm
    rcases List.mem_append.mp hm with hm | hm
    · rw [hgrid]
      exact cellConn_setA _ _ _ (hinv.conn rid r hm)
    · simp only [List.mem_singleton] at hm
      cases hm
      rw [hgrid, hbx, hby]
      exact hconn
  · rw [hgrid]
    exact occupied_setA _ _ _ _ hinv.startOcc

lemma mem_neighborPositions_adjacent (x y : Int) (p : Int × Int)
    (h : p ∈ neighborPositions x y) : Adjacent (x, y) p := by
  simp only [neighborPositions, List.mem_cons, List.mem_singleton,
    List.not_mem_nil, or_false] at h
  rcases h with h | h | h | h <;> subst h
  · exact ⟨DoorDirection.north, by unfold adjPos deltaOf;exact Prod.ext (by ring) (by ring)⟩
  · exact ⟨DoorDirection.south, by unfold adjPos deltaOf; exact Prod.ext (by ring) (by ring)⟩
  · exact ⟨DoorDirection.east, by unfold adjPos deltaOf; exact Prod.ext (by ring) (by ring)⟩
  · exact ⟨DoorDirection.west, by unfold adjPos deltaOf; exact Prod.ext (by ring) (by ring)⟩

lemma frontierOK_setA (grid : List ((Int × Int) × String)) (k : Int × Int)
    (v : String) (frontier : List (Int × Int))
    (h : FrontierOK grid frontier) : FrontierOK (setA grid k v) frontier := by
  intro p hp
  rcases h p hp with ⟨q, hq, ha⟩
  exact ⟨q, occupied_setA _ _ _ _ hq, ha⟩

lemma frontierOK_eraseIdx (grid : List ((Int × Int) × String))
    (frontier : List (Int × Int)) (i : Nat) (h : FrontierOK grid frontier) :
    FrontierOK grid (frontier.eraseIdx i) :=
  fun p hp => h p (frontier.eraseIdx_subset i hp)

lemma frontierOK_addNeighbors (gridF grid : List ((Int × Int) × String))
    (x y : Int) (frontier : List (Int × Int))
    (hxy : occupied grid (x, y)) (hf : FrontierOK grid frontier) :
    FrontierOK grid (addNeighborsToFrontier gridF x y frontier) := by
  intro p hp
  rcases List.mem_append.mp hp with hp | hp
  · exact hf p hp
  · exact ⟨(x, y), hxy, mem_neighborPositions_adjacent x y p
      (List.mem_of_mem_filter hp)⟩

lemma mainPathLoop_inv (N : Nat) :
    ∀ (st : GenState) (frontier : List (Int × Int)) (t : Int),
      (t - st.rooms.length).toNat * 5 + frontier.length < N →
      GInv st → FrontierOK st.grid frontier →
      GInv (mainPathLoop st frontier t) ∧
      (∀ p rid, getA st.grid p = some rid →
        getA (mainPathLoop st frontier t).grid p = some rid) ∧
      (∀ e, e ∈ st.rooms → e ∈ (mainPathLoop st frontier t).rooms) := by
  induction N with
  | zero =>
    intro st frontier t hN
    omega
  | succ N ih =>
    intro st frontier t hN hinv hfok
    by_cases hc : (st.rooms.length : Int) < t ∧ frontier ≠ []
    · cases hget : frontier.get?
        (st.rng.intBetween 0 ((frontier.length : Int) - 1)).1.toNat with
      | none =>
        rw [mainPathLoop_none st frontier t hc hget]
        exact ⟨⟨hinv.idsIndexed, hinv.coh1, hinv.coh2, hinv.noDoors, hinv.conn,
          hinv.startOcc⟩, fun p rid h => h, fun e he => he⟩
      | some pos =>
        rcases List.get?_eq_some.mp hget with ⟨hlt, -⟩
        have he := List.length_eraseIdx_add_one hlt
        by_cases hocc : (getA st.grid pos).isSome = true
        · rw [mainPathLoop_stale st frontier t pos hc hget hocc]
          exact ih _ _ _ (by dsimp only; omega)
            ⟨hinv.idsIndexed, hinv.coh1, hinv.coh2, hinv.noDoors, hinv.conn,
              hinv.startOcc⟩
            (frontierOK_eraseIdx _ _ _ hfok)
        · rw [mainPathLoop_place st frontier t pos hc hget hocc]
          have hfree : getA st.grid pos = none := by
            rcases hg : getA st.grid pos with _ | v
            · rfl
            · exact absurd (by rw [hg]; rfl) hocc
          have hmem : pos ∈ frontier := List.get?_mem hget
          rcases hfok pos hmem with ⟨q, hq, hadj⟩
          have hpair : ((pos.1, pos.2) : Int × Int) = pos := rfl
          have hconn : CellConn
              (setA st.grid (pos.1, pos.2) (roomId st.rooms.length))
              (0, 0) pos := by
            rcases Option.isSome_iff_exists.mp hq with ⟨v, hv⟩
            rcases hinv.coh1 q v hv with ⟨r, hmr, h1, h2, -⟩
            have hcq : CellConn st.grid (0, 0) q := by
              have hcr := hinv.conn _ _ hmr
              rw [h1, h2] at hcr
              exact hcr
            refine Relation.ReflTransGen.tail (cellConn_setA _ _ _ hcq)
              ⟨?_, hadj⟩
            unfold occupied
            rw [hpair, getA_setA_self]
            rfl
          have hinv1 : GInv (createRoom
              { st with rng :=
                  (st.rng.intBetween 0 ((frontier.length : Int) - 1)).2 }
              RoomType.normal pos.1 pos.2).2 := by
            have hinvR : GInv { st with rng :=
                (st.rng.intBetween 0 ((frontier.length : Int) - 1)).2 } :=
              ⟨hinv.idsIndexed, hinv.coh1, hinv.coh2, hinv.noDoors, hinv.conn,
                hinv.startOcc⟩
            have hfree2 : getA ({ st with rng :=
                (st.rng.intBetween 0 ((frontier.length : Int) - 1)).2 } :
                  GenState).grid (pos.1, pos.2) = none := by
              rw [hpair]
              exact hfree
            exact createRoom_inv _ RoomType.normal pos.1 pos.2 hinvR hfree2 hconn
          have hfok1 : FrontierOK
              (createRoom
                { st with rng :=
                    (st.rng.intBetween 0 ((frontier.length : Int) - 1)).2 }
                RoomType.normal pos.1 pos.2).2.grid
              (addNeighborsToFrontier
                (createRoom
                  { st with rng :=
                      (st.rng.intBetween 0 ((frontier.length : Int) - 1)).2 }
                  RoomType.normal pos.1 pos.2).2.grid pos.1 pos.2
                (frontier.eraseIdx
                  (st.rng.intBetween 0 ((frontier.length : Int) - 1)).1.toNat)) := by
            rw [createRoom_grid_eq]
            apply frontierOK_addNeighbors
            · unfold occupied
              rw [hpair, getA_setA_self]
              rfl
            · exact frontierOK_setA _ _ _ _ (frontierOK_eraseIdx _ _ _ hfok)
          have hcr := createRoom_rooms_length
            { st with rng := (st.rng.intBetween 0 ((frontier.length : Int) - 1)).2 }
            RoomType.normal pos.1 pos.2
          have haf := addNeighborsToFrontier_length
            (createRoom
              { st with rng :=
                  (st.rng.intBetween 0 ((frontier.length : Int) - 1)).2 }
              RoomType.normal pos.1 pos.2).2.grid pos.1 pos.2
            (frontier.eraseIdx
              (st.rng.intBetween 0 ((frontier.length : Int) - 1)).1.toNat)
          have hm : (st.rooms.length : Int) < t := hc.1
          have hmeas : (t - (createRoom
              { st with rng :=
                  (st.rng.intBetween 0 ((frontier.length : Int) - 1)).2 }
              RoomType.normal pos.1 pos.2).2.rooms.length).toNat * 5 +
              (addNeighborsToFrontier
                (createRoom
                  { st with rng :=
                      (st.rng.intBetween 0 ((frontier.length : Int) - 1)).2 }
                  RoomType.normal pos.1 pos.2).2.grid pos.1 pos.2
                (frontier.eraseIdx
                  (st.rng.intBetween 0
                    ((frontier.length : Int) - 1)).1.toNat)).length < N := by
            dsimp only at hcr
            rw [hcr]
            omega
          have hrec := ih _ _ _ hmeas hinv1 hfok1
          refine ⟨hrec.1, ?_, ?_⟩
          · intro p rid h
            apply hrec.2.1
            rw [createRoom_grid_eq]
            have hnep : p ≠ ((pos.1, pos.2) : Int × Int) := by
              intro hh
              rw [hh, hpair, hfree] at h
              cases h
            rw [getA_setA_ne _ _ _ _ hnep]
            exact h
          · intro e hemem
            apply hrec.2.2
            rw [createRoom_rooms_eq]
            exact List.mem_append_left _ hemem
    · rw [mainPathLoop_exit st frontier t hc]
      exact ⟨hinv, fun p rid h => h, fun e he => he⟩

end DungeonGenerator

/-! ## Connectivity and reciprocity of the eagerly generated floor -/

namespace DungeonGenerator

lemma adjPos_north (x y : Int) :
    adjPos (x, y) DoorDirection.north = (x, y - 1) := by
  unfold adjPos deltaOf
  exact Prod.ext (by ring) (by ring)

lemma adjPos_south (x y : Int) :
    adjPos (x, y) DoorDirection.south = (x, y + 1) := by
  unfold adjPos deltaOf
  exact Prod.ext (by ring) (by ring)

lemma adjPos_east (x y : Int) :
    adjPos (x, y) DoorDirection.east = (x + 1, y) := by
  unfold adjPos deltaOf
  exact Prod.ext (by ring) (by ring)

lemma adjPos_west (x y : Int) :
    adjPos (x, y) DoorDirection.west = (x - 1, y) := by
  unfold adjPos deltaOf
  exact Prod.ext (by ring) (by ring)

end DungeonGenerator

lemma shuffleLoop_mem {α : Type} :
    ∀ (i : Nat) (g : SeededRandom) (xs : List α) (x : α),
      x ∈ (shuffleLoop g xs i).1 → x ∈ xs := by
  intro i
  induction i with
  | zero =>
    intro g xs x h
    exact h
  | succ k ih =>
    intro g xs x h
    unfold shuffleLoop at h
    dsimp only at h
    rcases h1 : xs.get? (k + 1) with _ | a <;>
      rcases h2 : xs.get? (g.intBetween 0 ((k + 1 : Nat) : Int)).1.toNat
        with _ | b <;>
      rw [h1, h2] at h <;> dsimp only at h
    · exact h
    · exact h
    · exact h
    · have h3 := ih _ _ _ h
      rcases List.mem_or_eq_of_mem_set h3 with h4 | h4
      · rcases List.mem_or_eq_of_mem_set h4 with h5 | h5
        · exact h5
        · subst h5
          exact List.get?_mem h2
      · subst h4
        exact List.get?_mem h1

lemma shuffle_mem {α : Type} (g : SeededRandom) (xs : List α) (x : α)
    (h : x ∈ (g.shuffle xs).1) : x ∈ xs := by
  unfold SeededRandom.shuffle at h
  exact shuffleLoop_mem _ _ _ _ h

namespace DungeonGenerator

lemma furthestLoop_mem (startRoom : Room) :
    ∀ (rs : List Room) (best : Room) (bestD : Int),
      (furthestLoop startRoom best bestD rs).1 = best ∨
      (furthestLoop startRoom best bestD rs).1 ∈ rs := by
  intro rs
  induction rs with
  | nil =>
    intro best bestD
    exact Or.inl rfl
  | cons r rest ih =>
    intro best bestD
    unfold furthestLoop
    dsimp only
    by_cases hlt : bestD < |r.gridX - startRoom.gridX| + |r.gridY - startRoom.gridY|
    · rw [if_pos hlt]
      rcases ih r (|r.gridX - startRoom.gridX| + |r.gridY - startRoom.gridY|)
        with h | h
      · refine Or.inr ?_
        rw [h]
        exact List.mem_cons_self _ _
      · exact Or.inr (List.mem_cons_of_mem _ h)
    · rw [if_neg hlt]
      rcases ih best bestD with h | h
      · exact Or.inl h
      · exact Or.inr (List.mem_cons_of_mem _ h)

lemma bossTryLoop_inv (st : GenState) (furthest : Room) (hinv : GInv st)
    (hfocc : occupied st.grid (furthest.gridX, furthest.gridY)) :
    ∀ dirs : List ((Int × Int) × DoorDirection),
      (∀ e ∈ dirs, e ∈ bossDirections) →
      GInv (bossTryLoop st furthest dirs).2 ∧
      (∀ p rid, getA st.grid p = some rid →
        getA (bossTryLoop st furthest dirs).2.grid p = some rid) ∧
      (∀ e, e ∈ st.rooms → e ∈ (bossTryLoop st furthest dirs).2.rooms) := by
  intro dirs
  induction dirs with
  | nil =>
    intro _
    exact ⟨hinv, fun p rid h => h, fun e he => he⟩
  | cons hd rest ih =>
    intro hsub
    cases hd with
    | mk delta dir =>
      unfold bossTryLoop
      dsimp only
      rcases hg : getA st.grid
          (furthest.gridX + delta.1, furthest.gridY + delta.2) with _ | rid0
      · rw [if_neg (by simp)]
        have hadj : Adjacent (furthest.gridX, furthest.gridY)
            (furthest.gridX + delta.1, furthest.gridY + delta.2) := by
          have hmem := hsub (delta, dir) (List.mem_cons_self _ _)
          simp only [bossDirections, List.mem_cons, List.not_mem_nil,
            or_false] at hmem
          rcases hmem with h | h | h | h <;>
            (rw [Prod.mk.injEq] at h; obtain ⟨h1, -⟩ := h; subst h1)
          · exact ⟨DoorDirection.north, rfl⟩
          · exact ⟨DoorDirection.south, rfl⟩
          · exact ⟨DoorDirection.east, rfl⟩
          · exact ⟨DoorDirection.west, rfl⟩
        have hconn : CellConn
            (setA st.grid (furthest.gridX + delta.1, furthest.gridY + delta.2)
              (roomId st.rooms.length))
            (0, 0) (furthest.gridX + delta.1, furthest.gridY + delta.2) := by
          rcases Option.isSome_iff_exists.mp hfocc with ⟨frid, hfv⟩
          rcases hinv.coh1 _ _ hfv with ⟨fr, hfm, h1, h2, -⟩
          have hcf : CellConn st.grid (0, 0)
              (furthest.gridX, furthest.gridY) := by
            have hc := hinv.conn _ _ hfm
            rw [h1, h2] at hc
            exact hc
          refine Relation.ReflTransGen.tail (cellConn_setA _ _ _ hcf) ⟨?_, hadj⟩
          unfold occupied
          rw [getA_setA_self]
          rfl
        refine ⟨createRoom_inv _ RoomType.boss _ _ hinv hg hconn, ?_, ?_⟩
        · intro p rid h
          rw [createRoom_grid_eq]
          have hne : p ≠ ((furthest.gridX + delta.1,
              furthest.gridY + delta.2) : Int × Int) := by
            intro hh
            rw [hh, hg] at h
            cases h
          rw [getA_setA_ne _ _ _ _ hne]
          exact h
        · intro e he
          rw [createRoom_rooms_eq]
          exact List.mem_append_left _ he
      · have hcond : (Option.some rid0).isSome = true := rfl
        rw [if_pos hcond]
        exact ih fun e he => hsub e (List.mem_cons_of_mem _ he)

lemma placeBossRoom_inv (st : GenState) (startRoom : Room) (hinv : GInv st)
    (hso : occupied st.grid (startRoom.gridX, startRoom.gridY)) :
    GInv (placeBossRoom st startRoom).2 ∧
    (∀ p rid, getA st.grid p = some rid →
      getA (placeBossRoom st startRoom).2.grid p = some rid) ∧
    (∀ e, e ∈ st.rooms → e ∈ (placeBossRoom st startRoom).2.rooms) := by
  unfold placeBossRoom
  have hinv2 : GInv { st with rng := (st.rng.shuffle bossDirections).2 } :=
    ⟨hinv.idsIndexed, hinv.coh1, hinv.coh2, hinv.noDoors, hinv.conn,
      hinv.startOcc⟩
  have hfocc : occupied st.grid
      ((furthestLoop startRoom startRoom 0 (st.rooms.map fun p => p.2)).1.gridX,
       (furthestLoop startRoom startRoom 0 (st.rooms.map fun p => p.2)).1.gridY) := by
    rcases furthestLoop_mem startRoom (st.rooms.map fun p => p.2) startRoom 0
      with h | h
    · rw [h]
      exact hso
    · rcases List.mem_map.mp h with ⟨e, hmem, he⟩
      have h2 := (hinv.coh2 e.1 e.2 hmem).1
      rw [he] at h2
      unfold occupied
      rw [h2]
      rfl
  exact bossTryLoop_inv { st with rng := (st.rng.shuffle bossDirections).2 }
    (furthestLoop startRoom startRoom 0 (st.rooms.map fun p => p.2)).1
    hinv2 hfocc (st.rng.shuffle bossDirections).1
    (fun e he => shuffle_mem _ _ _ he)

lemma placeSpecialRooms_grid (st : GenState) (f : Int) :
    (placeSpecialRooms st f).grid = st.grid := by
  unfold placeSpecialRooms
  dsimp only
  split <;> rfl

lemma placeSpecialRooms_rooms (st : GenState) (f : Int) :
    (placeSpecialRooms st f).rooms = st.rooms := by
  unfold placeSpecialRooms
  dsimp only
  split <;> rfl

lemma placeSpecialRooms_inv (st : GenState) (f : Int) (hinv : GInv st) :
    GInv (placeSpecialRooms st f) := by
  unfold placeSpecialRooms
  dsimp only
  split
  · exact hinv
  · exact ⟨hinv.idsIndexed, hinv.coh1, hinv.coh2, hinv.noDoors, hinv.conn,
      hinv.startOcc⟩

end DungeonGenerator

namespace DungeonGenerator

lemma connectOne_fields (grid : List ((Int × Int) × String)) (room : Room) :
    (connectOne grid room).id = room.id ∧
    (connectOne grid room).gridX = room.gridX ∧
    (connectOne grid room).gridY = room.gridY := by
  unfold connectOne
  generalize getNeighbors grid room.gridX room.gridY = l
  induction l generalizing room with
  | nil => exact ⟨rfl, rfl, rfl⟩
  | cons nd rest ih =>
    dsimp only [List.foldl]
    rcases ih (if room.hasDoor nd.2 then room
      else room.addDoor nd.2 (some nd.1)) with ⟨i1, i2, i3⟩
    refine ⟨?_, ?_, ?_⟩
    · rw [i1]
      split <;> rfl
    · rw [i2]
      split <;> rfl
    · rw [i3]
      split <;> rfl

set_option maxHeartbeats 2000000 in
lemma connectOne_doorTarget (grid : List ((Int × Int) × String)) (room : Room)
    (hd : room.doors = []) (d : DoorDirection) :
    (connectOne grid room).doorTarget d =
      getA grid (adjPos (room.gridX, room.gridY) d) := by
  rcases hN : getA grid (room.gridX, room.gridY - 1) with _ | rn <;>
    rcases hS : getA grid (room.gridX, room.gridY + 1) with _ | rs <;>
    rcases hE : getA grid (room.gridX + 1, room.gridY) with _ | re <;>
    rcases hW : getA grid (room.gridX - 1, room.gridY) with _ | rw0 <;>
    cases d <;>
    simp [connectOne, getNeighbors, hN, hS, hE, hW, Room.doorTarget,
      Room.getDoor, Room.hasDoor, Room.addDoor, hd, getA, setA,
      adjPos_north, adjPos_south, adjPos_east, adjPos_west]

lemma connectRooms_rooms (st : GenState) :
    (connectRooms st).rooms =
      st.rooms.map fun p => (p.1, connectOne st.grid p.2) := rfl

lemma nodupKeys_of_inv (st : GenState) (hinv : GInv st) :
    (st.rooms.map Prod.fst).Nodup := by
  rw [hinv.idsIndexed]
  exact idList_nodup _

lemma start_state_inv (st1 : GenState) (h0 : st1.rooms = [])
    (h1 : st1.grid = []) :
    GInv (createRoom st1 RoomType.start 0 0).2 := by
  have hgrid := createRoom_grid_eq st1 RoomType.start 0 0
  have hrooms := createRoom_rooms_eq st1 RoomType.start 0 0
  obtain ⟨hbx, hby, hbid, hbdoors, -⟩ :=
    createRoom_room_basic st1 RoomType.start 0 0
  rw [h0] at hrooms hbid
  rw [h1, h0] at hgrid
  simp only [List.length_nil] at hgrid hrooms hbid
  simp only [List.nil_append] at hrooms
  constructor
  · rw [hrooms]
    rfl
  · intro p rid hg
    rw [hgrid] at hg
    by_cases hp : p = ((0, 0) : Int × Int)
    · subst hp
      rw [getA_setA_self] at hg
      injection hg with hg
      subst hg
      exact ⟨(createRoom st1 RoomType.start 0 0).1,
        by rw [hrooms]; exact List.mem_cons_self _ _, hbx, hby, hbid⟩
    · rw [getA_setA_ne _ _ _ _ hp] at hg
      simp [getA] at hg
  · intro rid r hm
    rw [hrooms] at hm
    rcases List.mem_cons.mp hm with he | he
    · rw [Prod.mk.injEq] at he
      obtain ⟨he1, he2⟩ := he
      subst he1
      subst he2
      rw [hgrid, hbx, hby]
      exact ⟨getA_setA_self _ _ _, hbid⟩
    · exact absurd he (List.not_mem_nil _)
  · intro rid r hm
    rw [hrooms] at hm
    rcases List.mem_cons.mp hm with he | he
    · rw [Prod.mk.injEq] at he
      obtain ⟨-, he2⟩ := he
      subst he2
      exact hbdoors
    · exact absurd he (List.not_mem_nil _)
  · intro rid r hm
    rw [hrooms] at hm
    rcases List.mem_cons.mp hm with he | he
    · rw [Prod.mk.injEq] at he
      obtain ⟨-, he2⟩ := he
      subst he2
      rw [hbx, hby]
      exact Relation.ReflTransGen.refl
    · exact absurd he (List.not_mem_nil _)
  · unfold occupied
    rw [hgrid, getA_setA_self]
    rfl

end DungeonGenerator

namespace DungeonGenerator

set_option maxHeartbeats 4000000 in
/-- The floor returned by `generate` is the connection pass applied to a
pre-connection state satisfying the pipeline invariant, with the start room
the connected version of the room keyed `room_0` placed at `(0, 0)`. -/
lemma generate_decomp (config : DungeonConfig) (now : Int) :
    ∃ (st : GenState) (room0 : Room),
      GInv st ∧
      (generate config now).rooms =
        st.rooms.map (fun p => connectOne st.grid p.2) ∧
      (roomId 0, room0) ∈ st.rooms ∧
      room0.gridX = 0 ∧ room0.gridY = 0 ∧
      (generate config now).startRoom = connectOne st.grid room0 := by
  let st0 : GenState :=
    { rng := SeededRandom.setSeed (config.seed.getD now), rooms := [], grid := [] }
  let ptT := st0.rng.intBetween (config.minRooms.getD MIN_ROOMS_PER_FLOOR)
    (config.maxRooms.getD MAX_ROOMS_PER_FLOOR)
  let st1 : GenState := { st0 with rng := ptT.2 }
  let psT := createRoom st1 RoomType.start 0 0
  let st2T := generateMainPath psT.2 psT.1 ptT.1
  let pbT := placeBossRoom st2T psT.1
  let st3T := placeSpecialRooms pbT.2 config.floorNumber
  obtain ⟨hbx, hby, hbid, -, -⟩ := createRoom_room_basic st1 RoomType.start 0 0
  have hinv1 : GInv psT.2 := start_state_inv st1 rfl rfl
  have hocc1 : occupied psT.2.grid (0, 0) := hinv1.startOcc
  have hmem1 : (roomId 0, psT.1) ∈ psT.2.rooms := by
    rw [createRoom_rooms_eq]
    exact List.mem_append_right _ (List.mem_cons_self _ _)
  have hfok1 : FrontierOK psT.2.grid
      (addNeighborsToFrontier psT.2.grid psT.1.gridX psT.1.gridY []) := by
    apply frontierOK_addNeighbors
    · rw [hbx, hby]
      exact hocc1
    · intro p hp
      cases hp
  have h2 := mainPathLoop_inv
    ((ptT.1 - psT.2.rooms.length).toNat * 5 +
      (addNeighborsToFrontier psT.2.grid psT.1.gridX psT.1.gridY []).length + 1)
    psT.2 (addNeighborsToFrontier psT.2.grid psT.1.gridX psT.1.gridY []) ptT.1
    (by omega) hinv1 hfok1
  have hinv2 : GInv st2T := h2.1
  have hmem2 : (roomId 0, psT.1) ∈ st2T.rooms := h2.2.2 _ hmem1
  have hso2 : occupied st2T.grid (psT.1.gridX, psT.1.gridY) := by
    rw [hbx, hby]
    exact hinv2.startOcc
  have h3 := placeBossRoom_inv st2T psT.1 hinv2 hso2
  have hinv3 : GInv pbT.2 := h3.1
  have hmem3 : (roomId 0, psT.1) ∈ pbT.2.rooms := h3.2.2 _ hmem2
  have hinv4 : GInv st3T := placeSpecialRooms_inv pbT.2 config.floorNumber hinv3
  have hmem4 : (roomId 0, psT.1) ∈ st3T.rooms := by
    show (roomId 0, psT.1) ∈ (placeSpecialRooms pbT.2 config.floorNumber).rooms
    rw [placeSpecialRooms_rooms]
    exact hmem3
  refine ⟨st3T, psT.1, hinv4, ?_, hmem4, hbx, hby, ?_⟩
  · have hfr : (generate config now).rooms =
        (connectRooms st3T).rooms.map (fun p => p.2) := rfl
    rw [hfr, connectRooms_rooms, List.map_map]
    rfl
  · have hstart : (generate config now).startRoom =
        (getA (connectRooms st3T).rooms psT.1.id).getD psT.1 := rfl
    rw [hstart, connectRooms_rooms]
    have hnd4 : (st3T.rooms.map Prod.fst).Nodup := nodupKeys_of_inv _ hinv4
    have hkeys : ((st3T.rooms.map
        (fun p => (p.1, connectOne st3T.grid p.2))).map Prod.fst).Nodup := by
      rw [List.map_map]
      exact hnd4
    have hmemM : (psT.1.id, connectOne st3T.grid psT.1) ∈
        st3T.rooms.map (fun p => (p.1, connectOne st3T.grid p.2)) := by
      refine List.mem_map.mpr ⟨(roomId 0, psT.1), hmem4, ?_⟩
      dsimp only
      rw [hbid]
      rfl
    rw [getA_of_mem_nodupKeys _ hkeys _ _ hmemM]
    rfl

end DungeonGenerator

/-! ## Door-path reachability -/

/-- One hop along a recorded door: `b` is on the floor and some door of `a`
targets `b`'s id. -/
def DoorStep (rooms : List Room) (a b : Room) : Prop :=
  b ∈ rooms ∧ ∃ d, a.doorTarget d = some b.id

/-- Reachability by following doors within a floor's room list. -/
def DoorReach (rooms : List Room) : Room → Room → Prop :=
  Relation.ReflTransGen (DoorStep rooms)

namespace DungeonGenerator

lemma doorReach_to_start (st : GenState) (hinv : GInv st)
    (p : Int × Int) (ridp : String) (rp : Room)
    (hp : getA st.grid p = some ridp) (hmp : (ridp, rp) ∈ st.rooms) :
    ∀ q : Int × Int, CellConn st.grid p q →
      ∀ ridq rq, getA st.grid q = some ridq → (ridq, rq) ∈ st.rooms →
      DoorReach (st.rooms.map fun e => connectOne st.grid e.2)
        (connectOne st.grid rp) (connectOne st.grid rq) := by
  have hnd : (st.rooms.map Prod.fst).Nodup := nodupKeys_of_inv st hinv
  intro q hpath
  induction hpath with
  | refl =>
    intro ridq rq hq hmq
    rw [hp] at hq
    injection hq with hq
    subst hq
    have heq : rp = rq := mem_unique_of_nodupKeys st.rooms hnd ridp rp rq hmp hmq
    rw [heq]
    exact Relation.ReflTransGen.refl
  | tail hsub hstep ih =>
    rename_i b c
    intro ridc rc hc hmc
    have hob : occupied st.grid b := by
      cases hsub with
      | refl =>
        unfold occupied
        rw [hp]
        rfl
      | tail _ hs => exact hs.1
    rcases Option.isSome_iff_exists.mp hob with ⟨ridb, hb⟩
    rcases hinv.coh1 _ _ hb with ⟨rb, hmb, hbx, hby, -⟩
    have hreach := ih ridb rb hb hmb
    rcases hstep.2 with ⟨d, hdq⟩
    refine Relation.ReflTransGen.tail hreach
      ⟨List.mem_map.mpr ⟨(ridc, rc), hmc, rfl⟩, d, ?_⟩
    rw [connectOne_doorTarget st.grid rb (hinv.noDoors _ _ hmb) d, hbx, hby]
    show getA st.grid (adjPos b d) = some (connectOne st.grid rc).id
    rw [← hdq, hc, (connectOne_fields st.grid rc).1, (hinv.coh2 _ _ hmc).2]

end DungeonGenerator

/-- C3: for every configuration, every room of the eagerly generated floor
has a door-path back to the start room. -/
theorem C3_every_room_reaches_start (config : DungeonConfig) (now : Int) :
    ∀ r ∈ (DungeonGenerator.generate config now).rooms,
      DoorReach (DungeonGenerator.generate config now).rooms r
        (DungeonGenerator.generate config now).startRoom := by
  obtain ⟨st, room0, hinv, hrooms, hm0, hx0, hy0, hstart⟩ :=
    DungeonGenerator.generate_decomp config now
  intro r hr
  rw [hrooms] at hr
  rcases List.mem_map.mp hr with ⟨e, hmem, he⟩
  rw [hrooms, hstart, ← he]
  have hcell := hinv.coh2 e.1 e.2 hmem
  have hpath : DungeonGenerator.CellConn st.grid (e.2.gridX, e.2.gridY) (0, 0) :=
    DungeonGenerator.cellConn_symm st.grid hinv.startOcc (hinv.conn e.1 e.2 hmem)
  obtain ⟨h01, -⟩ := hinv.coh2 (roomId 0) room0 hm0
  rw [hx0, hy0] at h01
  exact DungeonGenerator.doorReach_to_start st hinv (e.2.gridX, e.2.gridY)
    e.1 e.2 hcell.1 hmem (0, 0) hpath (roomId 0) room0 h01 hm0

set_option maxRecDepth 10000 in
theorem C3_witness :
    (DungeonGenerator.generate cfg12345 0).bossRoom ∈
      (DungeonGenerator.generate cfg12345 0).rooms ∧
    DoorReach (DungeonGenerator.generate cfg12345 0).rooms
      (DungeonGenerator.generate cfg12345 0).bossRoom
      (DungeonGenerator.generate cfg12345 0).startRoom :=
  ⟨by rw [DungeonGenerator.generate12345_eval]; decide,
   C3_every_room_reaches_start cfg12345 0 _
     (by rw [DungeonGenerator.generate12345_eval]; decide)⟩

/-- C4 (amended): in eagerly generated floors door targets are reciprocal —
for rooms `a`, `b` of one generated floor and direction `d`, `a`'s door in
direction `d` targets `b` exactly when `b`'s door in the opposite direction
targets `a`.  (In live mode the claim fails: see the counterexample.) -/
theorem C4_eager_reciprocity (config : DungeonConfig) (now : Int) :
    ∀ a ∈ (DungeonGenerator.generate config now).rooms,
      ∀ b ∈ (DungeonGenerator.generate config now).rooms,
        ∀ d : DoorDirection,
          (a.doorTarget d = some b.id ↔
            b.doorTarget (getOppositeDirection d) = some a.id) := by
  obtain ⟨st, room0, hinv, hrooms, -, -, -, -⟩ :=
    DungeonGenerator.generate_decomp config now
  have hnd := DungeonGenerator.nodupKeys_of_inv st hinv
  intro a ha b hb d
  rw [hrooms] at ha hb
  rcases List.mem_map.mp ha with ⟨ea, hma, rfl⟩
  rcases List.mem_map.mp hb with ⟨eb, hmb, rfl⟩
  rw [DungeonGenerator.connectOne_doorTarget st.grid ea.2
      (hinv.noDoors ea.1 ea.2 hma) d,
    DungeonGenerator.connectOne_doorTarget st.grid eb.2
      (hinv.noDoors eb.1 eb.2 hmb) (getOppositeDirection d),
    (DungeonGenerator.connectOne_fields st.grid ea.2).1,
    (DungeonGenerator.connectOne_fields st.grid eb.2).1]
  have hca := hinv.coh2 ea.1 ea.2 hma
  have hcb := hinv.coh2 eb.1 eb.2 hmb
  constructor
  · intro h
    rcases hinv.coh1 _ _ h with ⟨r, hmr, hrx, hry, -⟩
    have hmr2 : (eb.1, r) ∈ st.rooms := by
      rw [← hcb.2]
      exact hmr
    have hreq : r = eb.2 :=
      mem_unique_of_nodupKeys st.rooms hnd eb.1 r eb.2 hmr2 hmb
    subst hreq
    have hcellb : ((eb.2.gridX, eb.2.gridY) : Int × Int) =
        DungeonGenerator.adjPos (ea.2.gridX, ea.2.gridY) d := by
      rw [hrx, hry]
    rw [hcellb, DungeonGenerator.adjPos_opposite, hca.1, hca.2]
  · intro h
    have hopp : getOppositeDirection (getOppositeDirection d) = d := by
      cases d <;> rfl
    rcases hinv.coh1 _ _ h with ⟨r, hmr, hrx, hry, -⟩
    have hmr2 : (ea.1, r) ∈ st.rooms := by
      rw [← hca.2]
      exact hmr
    have hreq : r = ea.2 :=
      mem_unique_of_nodupKeys st.rooms hnd ea.1 r ea.2 hmr2 hma
    subst hreq
    have hcella : ((ea.2.gridX, ea.2.gridY) : Int × Int) =
        DungeonGenerator.adjPos (eb.2.gridX, eb.2.gridY)
          (getOppositeDirection d) := by
      rw [hrx, hry]
    have hback := DungeonGenerator.adjPos_opposite
      (eb.2.gridX, eb.2.gridY) (getOppositeDirection d)
    rw [hopp] at hback
    rw [hcella, hback, hcb.1, hcb.2]

set_option maxRecDepth 10000 in
theorem C4_eager_witness :
    (DungeonGenerator.generate cfg12345 0).startRoom ∈
      (DungeonGenerator.generate cfg12345 0).rooms ∧
    (DungeonGenerator.generate cfg12345 0).bossRoom ∈
      (DungeonGenerator.generate cfg12345 0).rooms ∧
    ((DungeonGenerator.generate cfg12345 0).startRoom.doorTarget
        DoorDirection.north =
        some (DungeonGenerator.generate cfg12345 0).bossRoom.id ↔
      (DungeonGenerator.generate cfg12345 0).bossRoom.doorTarget
          (getOppositeDirection DoorDirection.north) =
        some (DungeonGenerator.generate cfg12345 0).startRoom.id) :=
  ⟨by rw [DungeonGenerator.generate12345_eval]; decide,
   by rw [DungeonGenerator.generate12345_eval]; decide,
   C4_eager_reciprocity cfg12345 0 _
     (by rw [DungeonGenerator.generate12345_eval]; decide) _
     (by rw [DungeonGenerator.generate12345_eval]; decide) DoorDirection.north⟩
